import Mathlib

/-!
# SPFF image codec (`spffenc.c`, `spffdec.c`, `spff.h`)

A shallow embedding of the SPFF encoder and decoder.

* C `int` values are `Int`.  32-bit wrap-around is made explicit where the
  source stores the product of the two dimensions in an `int`
  (`n_bytes_image`) and where a 32-bit header word is read or written.
  Coordinates and the pointer offset `row * width + x` are kept exact: for a
  payload that fits in a packet (whose size is an `int`) they stay far below
  `2^31`.
* `uint8_t` values are `Nat`; every store into a `uint8_t` is an explicit
  `% 256`.
* A C pointer is the function that maps an offset to the cell found there
  (`Int → Nat`): a read through `src + k` is `src k`, whether or not `k` lies
  inside the buffer the pointer was derived from.  Which offsets the decoder
  reads is described separately by `get_rgb_avg_coords`.
* The host framework (`ff_alloc_packet2`, `ff_get_buffer`, the `sws_scale`
  conversion) is not part of the sources; the allocators are parameters and
  the encoder starts from the already converted RGB24 frame `frame2`.
* Standard output of the encoder is the list of values it prints.
-/

namespace Spff

/-! ## Data model (`spff.h`) -/

/-- The struct `RGBValues` of `spff.h`: three `uint8_t` channels. -/
@[ext]
structure RGBValues where
  Red : Nat
  Green : Nat
  Blue : Nat
deriving DecidableEq

/-- The fields of `AVCodecContext` the codec touches. -/
structure AVCodecContext where
  width : Int
  height : Int
deriving DecidableEq

/-- The plane `data[0]` (a byte pointer) and `linesize[0]` of an `AVFrame`. -/
structure AVFrame where
  data0 : Int → Nat
  linesize0 : Int

/-- An `AVPacket`: the pointer `data` and the `int` field `size`. -/
structure AVPacket where
  data : Int → Nat
  size : Int

/-! ## C arithmetic -/

/-- The C operator `%` on `int`: remainder of the division that truncates
toward zero. -/
def c_rem (a b : Int) : Int := Int.tmod a b

/-- Reading a `uint8_t` through a byte pointer at offset `k`. -/
def load_u8 (p : Int → Nat) (k : Int) : Nat := p k % 256

/-- Reinterpretation of an integer as a 32-bit two-complement `int`. -/
def wrap_int32 (v : Int) : Int :=
  let u := v % 4294967296
  if u < 2147483648 then u else u - 4294967296

/-- The constant `HEADER_SIZE` of both translation units. -/
def HEADER_SIZE : Int := 8

/-- The libavutil error code `AVERROR_INVALIDDATA`, `-MKTAG('I','N','D','A')`. -/
def AVERROR_INVALIDDATA : Int := -1094995529

/-! ## Decoder helpers (`spffdec.c`) -/

/-- The function `get_rgb_pos`: the cell at `src + row * width + x`, placed in
the channel chosen by the `switch`; the other two channels stay `0`. -/
def get_rgb_pos (src : Int → Nat) (width row x : Int) : RGBValues :=
  let cell := load_u8 src (row * width + x)
  let rgb : RGBValues := { Red := 0, Green := 0, Blue := 0 }
  let sel := c_rem (x + c_rem row 2 * 2) 3
  if sel = 0 then { rgb with Red := cell }
  else if sel = 1 then { rgb with Green := cell }
  else if sel = 2 then { rgb with Blue := cell }
  else rgb

/-- The function `avg_rgb`: per channel, when the channel of `second` is
positive the result is `(uint8_t)((first + second) / 2.0)`, otherwise the
channel of `first`.  The sum of two bytes and its half are exact in `double`,
and the conversion to `uint8_t` drops the fractional part. -/
def avg_rgb (first second : RGBValues) : RGBValues :=
  let rgb := first
  let rgb := if second.Red > 0
    then { rgb with Red := ((first.Red + second.Red) / 2) % 256 } else rgb
  let rgb := if second.Green > 0
    then { rgb with Green := ((first.Green + second.Green) / 2) % 256 } else rgb
  let rgb := if second.Blue > 0
    then { rgb with Blue := ((first.Blue + second.Blue) / 2) % 256 } else rgb
  rgb

/-- The function `get_rgb_avg`: the neighbours are folded into an accumulator
that starts at `(0,0,0)`, then the channels the pixel itself stores are
written over the accumulator. -/
def get_rgb_avg (src : Int → Nat) (width height row x : Int) : RGBValues :=
  let rgb : RGBValues := { Red := 0, Green := 0, Blue := 0 }
  let rgb :=
    if x > 0 then
      let left := get_rgb_pos src width row (x - 1)
      let rgb := avg_rgb rgb left
      let rgb :=
        if row > 0 then
          let top_left := get_rgb_pos src width (row - 1) (x - 1)
          avg_rgb rgb top_left
        else rgb
      let rgb :=
        if row < height then
          let bot_left := get_rgb_pos src width (row + 1) (x - 1)
          avg_rgb rgb bot_left
        else rgb
      rgb
    else rgb
  let rgb :=
    if x < width then
      let right := get_rgb_pos src width row (x + 1)
      let rgb := avg_rgb rgb right
      let rgb :=
        if row > 0 then
          let top_right := get_rgb_pos src width (row - 1) (x + 1)
          avg_rgb rgb top_right
        else rgb
      let rgb :=
        if row < height then
          let bot_right := get_rgb_pos src width (row + 1) (x + 1)
          avg_rgb rgb bot_right
        else rgb
      rgb
    else rgb
  let rgb :=
    if row > 0 then
      let top := get_rgb_pos src width (row - 1) x
      avg_rgb rgb top
    else rgb
  let rgb :=
    if row < height then
      let bot := get_rgb_pos src width (row + 1) x
      avg_rgb rgb bot
    else rgb
  let rgbPixel := get_rgb_pos src width row x
  let rgb := if rgbPixel.Red > 0 then { rgb with Red := rgbPixel.Red } else rgb
  let rgb := if rgbPixel.Green > 0 then { rgb with Green := rgbPixel.Green } else rgb
  let rgb := if rgbPixel.Blue > 0 then { rgb with Blue := rgbPixel.Blue } else rgb
  rgb

/-- The neighbour coordinates `(row, x)` that `get_rgb_avg` hands to
`get_rgb_pos`, in call order, under the same guards as the source; the final
call for the pixel itself is not listed. -/
def get_rgb_avg_coords (width height row x : Int) : List (Int × Int) :=
  (if x > 0 then
      [(row, x - 1)]
        ++ (if row > 0 then [(row - 1, x - 1)] else [])
        ++ (if row < height then [(row + 1, x - 1)] else [])
    else [])
  ++ (if x < width then
      [(row, x + 1)]
        ++ (if row > 0 then [(row - 1, x + 1)] else [])
        ++ (if row < height then [(row + 1, x + 1)] else [])
    else [])
  ++ (if row > 0 then [(row - 1, x)] else [])
  ++ (if row < height then [(row + 1, x)] else [])

/-- The last three statements of `get_rgb_avg`: each positive channel of
`rgbPixel` replaces that channel of `rgb`. -/
def self_overwrite (rgb rgbPixel : RGBValues) : RGBValues :=
  let rgb := if rgbPixel.Red > 0 then { rgb with Red := rgbPixel.Red } else rgb
  let rgb := if rgbPixel.Green > 0 then { rgb with Green := rgbPixel.Green } else rgb
  let rgb := if rgbPixel.Blue > 0 then { rgb with Blue := rgbPixel.Blue } else rgb
  rgb

/-! ## Byte stream primitives (`bytestream.h`) -/

/-- Modelled from the spec: `bytestream_put_le32` of libavcodec's
`bytestream.h` is not among the sources; it stores the low 32 bits of its
argument as four bytes, least significant first (the wire format of the
header words). -/
def bytestream_put_le32 (value : Int) : List Nat :=
  let u := (value % 4294967296).toNat
  [u % 256, u / 256 % 256, u / 65536 % 256, u / 16777216 % 256]

/-- Modelled from the spec: `bytestream_get_le32` of libavcodec's
`bytestream.h` is not among the sources; it reads four bytes at offset `k`,
least significant first, as an unsigned 32-bit value. -/
def bytestream_get_le32 (buf : Int → Nat) (k : Int) : Nat :=
  load_u8 buf k + 256 * load_u8 buf (k + 1) + 65536 * load_u8 buf (k + 2)
    + 16777216 * load_u8 buf (k + 3)

/-! ## Encoder (`spffenc.c`) -/

/-- The function `get_pixel_rgb`: the three bytes at
`data[0] + row * linesize[0] + col * 3`, viewed as an `RGBValues`. -/
def get_pixel_rgb (pict : AVFrame) (row col : Nat) : RGBValues :=
  let off : Int := row * pict.linesize0 + col * 3
  { Red := load_u8 pict.data0 off
    Green := load_u8 pict.data0 (off + 1)
    Blue := load_u8 pict.data0 (off + 2) }

/-- The body of the inner loop of `spff_encode_frame`: the `switch` that picks
the byte `channel` written for pixel `(i, j)`.  When no `case` matches the
source leaves `channel` unassigned; that branch yields `0` here and is never
taken for `i, j ≥ 0`. -/
def encode_channel (frame2 : AVFrame) (i j : Int) : Nat :=
  let sel := c_rem (j + c_rem i 2 * 2) 3
  if sel = 0 then (get_pixel_rgb frame2 i.toNat j.toNat).Red
  else if sel = 1 then (get_pixel_rgb frame2 i.toNat j.toNat).Green
  else if sel = 2 then (get_pixel_rgb frame2 i.toNat j.toNat).Blue
  else 0

/-- The two nested `for` loops of `spff_encode_frame`: the bytes handed to
`bytestream_put_byte`, in order (`i` from `0` while `i < height`, inside it `j`
from `0` while `j < width`). -/
def encode_pixels (frame2 : AVFrame) (width height : Int) : List Nat :=
  (List.range height.toNat).flatMap fun (i : Nat) =>
    (List.range width.toNat).map fun (j : Nat) => encode_channel frame2 (i : Int) (j : Int)

/-- What a call of `spff_encode_frame` leaves behind: the return value, the
flag `*got_packet`, the size passed to `ff_alloc_packet2`, the bytes stored
through `buf` starting at `pkt->data`, and the values handed to the three
`printf` calls, in call order. -/
structure EncodeResult where
  ret : Int
  got_packet : Int
  requested : Int
  written : List Nat
  printed : List Nat
deriving DecidableEq

/-- The function `spff_encode_frame`, from the converted frame `frame2` on.
`ff_alloc_packet2` is the host allocator (size ↦ return code) and `got_packet`
the value of `*got_packet` on entry.  `n_bytes_image` is an `int`.  After the
header the source reads pixel `(1, 1)` of `frame2`, whatever the dimensions,
and prints its `Red`, `Blue` and `Green` in this order (under the labels R, G,
B).  As every read of this embedding, that read returns the cells the frame
pointer holds at the offset; whether `frame2` owns these cells is not
recorded. -/
def spff_encode_frame (ff_alloc_packet2 : Int → Int) (avctx : AVCodecContext)
    (frame2 : AVFrame) (got_packet : Int) : EncodeResult :=
  let n_bytes_per_row := avctx.width
  let n_bytes_image := wrap_int32 (avctx.height * n_bytes_per_row + HEADER_SIZE)
  let ret := ff_alloc_packet2 n_bytes_image
  if ret < 0 then
    { ret := ret, got_packet := got_packet, requested := n_bytes_image, written := [],
      printed := [] }
  else
    let header := bytestream_put_le32 avctx.width ++ bytestream_put_le32 avctx.height
    let rgb := get_pixel_rgb frame2 1 1
    let printed := [rgb.Red, rgb.Blue, rgb.Green]
    { ret := 0
      got_packet := 1
      requested := n_bytes_image
      written := header ++ encode_pixels frame2 avctx.width avctx.height
      printed := printed }

/-! ## Decoder entry point (`spffdec.c`) -/

/-- What a call of `spff_decode_frame` leaves behind: the return value, the
flag `*got_frame`, the codec context, and the rows of pixels stored into the
frame. -/
structure DecodeResult where
  ret : Int
  got_frame : Int
  avctx : AVCodecContext
  picture : List (List RGBValues)
deriving DecidableEq

/-- The function `spff_decode_frame`.  `ff_get_buffer` is the host allocator
(context ↦ return code), `avctx` and `got_frame` are the context and the flag
on entry. -/
def spff_decode_frame (ff_get_buffer : AVCodecContext → Int) (avctx : AVCodecContext)
    (got_frame : Int) (avpkt : AVPacket) : DecodeResult :=
  let buf := avpkt.data
  let buf_size := avpkt.size
  if avpkt.size ≤ HEADER_SIZE then
    { ret := AVERROR_INVALIDDATA, got_frame := got_frame, avctx := avctx, picture := [] }
  else
    let width := wrap_int32 (bytestream_get_le32 buf 0)
    let height := wrap_int32 (bytestream_get_le32 buf 4)
    let avctx : AVCodecContext := { width := width, height := height }
    let ret := ff_get_buffer avctx
    if ret < 0 then
      { ret := ret, got_frame := got_frame, avctx := avctx, picture := [] }
    else
      let src : Int → Nat := fun k => buf (HEADER_SIZE + k)
      let picture := (List.range avctx.height.toNat).map fun (i : Nat) =>
        (List.range avctx.width.toNat).map fun (j : Nat) =>
          get_rgb_avg src width height (i : Int) (j : Int)
      { ret := buf_size, got_frame := 1, avctx := avctx, picture := picture }

/-! ## Vocabulary of the specification -/

/-- The width a packet's header declares, as the decoder's `int width`. -/
def declared_width (avpkt : AVPacket) : Int :=
  wrap_int32 (bytestream_get_le32 avpkt.data 0)

/-- The height a packet's header declares, as the decoder's `int height`. -/
def declared_height (avpkt : AVPacket) : Int :=
  wrap_int32 (bytestream_get_le32 avpkt.data 4)

/-- The index `(col + (row mod 2) * 2) mod 3` of the specification's
`select_channel`, on natural coordinates. -/
def select_channel (row col : Nat) : Nat := (col + (row % 2) * 2) % 3

/-- The channel `[Red, Green, Blue][k]` of a triple. -/
def RGBValues.chan (p : RGBValues) (k : Nat) : Nat :=
  if k = 0 then p.Red else if k = 1 then p.Green else p.Blue

/-- What `avg_rgb` makes of three contributions equal to `c` folded, one after
the other, into an accumulator that starts at `0`. -/
def three_halvings (c : Nat) : Nat := ((c / 2 + c) / 2 + c) / 2

/-- One channel of `avg_rgb`: the accumulator byte `f` and the contribution
`s`; a contribution of `0` leaves the accumulator as it is. -/
def avg_u8 (f s : Nat) : Nat := if s > 0 then ((f + s) / 2) % 256 else f

/-- The byte the decoder reads for the coordinate `(row, col)`: the cell at
offset `row * width + col` from `src`. -/
def stored_byte (src : Int → Nat) (width : Nat) (row col : Nat) : Nat :=
  load_u8 src ((row : Int) * (width : Int) + (col : Int))

/-- The accumulator of `get_rgb_avg` when all four guards hold: `avg_rgb`
folded from `(0,0,0)` over the triples of the neighbours in the order left,
top-left, bottom-left, right, top-right, bottom-right, top, bottom. -/
def neighbour_fold (src : Int → Nat) (width row x : Int) : RGBValues :=
  [get_rgb_pos src width row (x - 1), get_rgb_pos src width (row - 1) (x - 1),
   get_rgb_pos src width (row + 1) (x - 1), get_rgb_pos src width row (x + 1),
   get_rgb_pos src width (row - 1) (x + 1), get_rgb_pos src width (row + 1) (x + 1),
   get_rgb_pos src width (row - 1) x, get_rgb_pos src width (row + 1) x].foldl avg_rgb
    { Red := 0, Green := 0, Blue := 0 }

/-- What the neighbour at `(r, c)` contributes to channel `k`: its stored byte
when `k` is the channel it is stored as, and `0` otherwise. -/
def channel_sample (src : Int → Nat) (W k r c : Nat) : Nat :=
  if select_channel r c = k then stored_byte src W r c else 0

/-- A byte pointer into a list of bytes: offset `k` holds `bytes[k]`, and `0`
outside the list. -/
def ptr_of (bytes : List Nat) : Int → Nat :=
  fun k => if 0 ≤ k then bytes.getD k.toNat 0 else 0

/-! ## Concrete frames used in the evaluations below -/

/-- A 3x3 RGB24 frame, tightly packed, whose nine pixels are all
`(200, 100, 50)`. -/
def uniform_frame : AVFrame :=
  { data0 := ptr_of [200, 100, 50, 200, 100, 50, 200, 100, 50,
                     200, 100, 50, 200, 100, 50, 200, 100, 50,
                     200, 100, 50, 200, 100, 50, 200, 100, 50]
    linesize0 := 9 }

/-- The 2x2 RGB24 frame with row 0 = `(255,0,0), (0,255,0)` and
row 1 = `(0,0,255), (10,20,30)`, tightly packed. -/
def scenario_frame : AVFrame :=
  { data0 := ptr_of [255, 0, 0, 0, 255, 0, 0, 0, 255, 10, 20, 30]
    linesize0 := 6 }

/-- The 2x2 scenario frame with every channel that is not the selected one of
its pixel set to `77`. -/
def scenario_frame_masked : AVFrame :=
  { data0 := ptr_of [255, 77, 77, 77, 255, 77, 77, 77, 255, 10, 77, 77]
    linesize0 := 6 }

/-- An RGB24 frame 65536 pixels wide whose cells are all `0`. -/
def blank_frame : AVFrame :=
  { data0 := fun _ => 0
    linesize0 := 196608 }

/-- A 12-byte packet whose header declares a 1x1 image (`8 + 1*1 = 9`). -/
def long_packet : AVPacket :=
  { data := ptr_of [1, 0, 0, 0, 1, 0, 0, 0, 7, 8, 9, 10]
    size := 12 }

/-- A 9-byte packet whose header declares a 2x2 image (`8 + 2*2 = 12`). -/
def short_packet : AVPacket :=
  { data := ptr_of [2, 0, 0, 0, 2, 0, 0, 0, 7]
    size := 9 }

/-- A 9-byte packet whose header declares width `0` and height `1`. -/
def zero_width_packet : AVPacket :=
  { data := ptr_of [0, 0, 0, 0, 1, 0, 0, 0, 7]
    size := 9 }

/-- A 9-byte packet whose header declares width `1` and height `-1`. -/
def negative_height_packet : AVPacket :=
  { data := ptr_of [1, 0, 0, 0, 255, 255, 255, 255, 7]
    size := 9 }

/-- The well-formed 12-byte packet of a 2x2 image with payload `10 20 30 40`;
the cells after the packet hold `0`. -/
def exact_packet : AVPacket :=
  { data := ptr_of [2, 0, 0, 0, 2, 0, 0, 0, 10, 20, 30, 40]
    size := 12 }

/-- The same 12 packet bytes as `exact_packet`; the three cells after the
packet hold `200`. -/
def exact_packet_trailing : AVPacket :=
  { data := ptr_of [2, 0, 0, 0, 2, 0, 0, 0, 10, 20, 30, 40, 200, 200, 200]
    size := 12 }

/-! ## Channel selection -/

/-- On non-negative coordinates the C expression `(x + (row % 2) * 2) % 3`
is the specification's `select_channel`. -/
theorem c_rem_select (row col : Nat) :
    c_rem ((col : Int) + c_rem (row : Int) 2 * 2) 3 = (select_channel row col : Nat) := by
  unfold c_rem select_channel
  have h2 : Int.tmod (row : Int) 2 = ((row % 2 : Nat) : Int) := by
    rw [Int.tmod_eq_emod (by omega) (by omega)]
    omega
  rw [h2, Int.tmod_eq_emod (by omega) (by omega)]
  omega

theorem select_channel_lt (row col : Nat) : select_channel row col < 3 := by
  unfold select_channel
  omega

/-- The triple `get_rgb_pos` returns at a non-negative coordinate, by selected
channel. -/
theorem get_rgb_pos_nat (src : Int → Nat) (width : Int) (row col : Nat) :
    get_rgb_pos src width row col =
      if select_channel row col = 0 then
        { Red := load_u8 src (row * width + col), Green := 0, Blue := 0 }
      else if select_channel row col = 1 then
        { Red := 0, Green := load_u8 src (row * width + col), Blue := 0 }
      else
        { Red := 0, Green := 0, Blue := load_u8 src (row * width + col) } := by
  have hlt := select_channel_lt row col
  unfold get_rgb_pos
  simp only [c_rem_select]
  by_cases h0 : select_channel row col = 0
  · simp [h0]
  · by_cases h1 : select_channel row col = 1
    · simp [h1]
    · have h2 : select_channel row col = 2 := by omega
      simp [h2]

/-- The byte the encoder's `switch` picks at a non-negative coordinate. -/
theorem encode_channel_nat (frame2 : AVFrame) (row col : Nat) :
    encode_channel frame2 row col =
      (get_pixel_rgb frame2 row col).chan (select_channel row col) := by
  have hlt := select_channel_lt row col
  unfold encode_channel RGBValues.chan
  simp only [c_rem_select, Int.toNat_ofNat]
  by_cases h0 : select_channel row col = 0
  · simp [h0]
  · by_cases h1 : select_channel row col = 1
    · simp [h1]
    · have h2 : select_channel row col = 2 := by omega
      simp [h2]

/-! ## The pixel loop as a row-major table -/

/-- Length of a row-major table built by two nested loops. -/
theorem length_rows {α : Type} (g : Nat → Nat → α) (W H : Nat) :
    ((List.range H).flatMap fun i => (List.range W).map fun j => g i j).length = H * W := by
  induction H with
  | zero => simp
  | succ n ih =>
    rw [List.range_succ, List.flatMap_append, List.length_append, ih]
    simp [Nat.succ_mul]

/-- Entry `row * W + col` of a row-major table is the value computed for
`(row, col)`. -/
theorem getElem?_rows {α : Type} (g : Nat → Nat → α) (W H row col : Nat)
    (hrow : row < H) (hcol : col < W) :
    ((List.range H).flatMap fun i => (List.range W).map fun j => g i j)[row * W + col]?
      = some (g row col) := by
  induction H with
  | zero => omega
  | succ n ih =>
    rw [List.range_succ, List.flatMap_append]
    by_cases hlt : row < n
    · have hidx : row * W + col < n * W := by
        have : (row + 1) * W ≤ n * W := Nat.mul_le_mul_right W (by omega)
        rw [Nat.succ_mul] at this
        omega
      rw [List.getElem?_append_left (by rw [length_rows]; exact hidx)]
      exact ih hlt
    · have hrn : row = n := by omega
      subst hrn
      rw [List.getElem?_append_right (by rw [length_rows]; omega), length_rows]
      simp [List.getElem?_range hcol, hcol]

theorem length_encode_pixels (frame2 : AVFrame) (W H : Nat) :
    (encode_pixels frame2 W H).length = H * W := by
  unfold encode_pixels
  simp only [Int.toNat_ofNat]
  exact length_rows (fun i j => encode_channel frame2 (i : Int) (j : Int)) W H

/-- The byte stored for pixel `(row, col)` sits at offset `row * W + col` of
the pixel loop's output and is the selected channel of the source pixel. -/
theorem getElem?_encode_pixels (frame2 : AVFrame) (W H row col : Nat)
    (hrow : row < H) (hcol : col < W) :
    (encode_pixels frame2 W H)[row * W + col]?
      = some ((get_pixel_rgb frame2 row col).chan (select_channel row col)) := by
  unfold encode_pixels
  simp only [Int.toNat_ofNat]
  rw [getElem?_rows (fun i j => encode_channel frame2 (i : Int) (j : Int)) W H row col hrow hcol,
    encode_channel_nat]

/-- A channel read from a frame is a byte. -/
theorem chan_get_pixel_rgb_lt (frame2 : AVFrame) (row col k : Nat) :
    (get_pixel_rgb frame2 row col).chan k < 256 := by
  unfold RGBValues.chan get_pixel_rgb load_u8
  split_ifs <;> exact Nat.mod_lt _ (by decide)

/-! ## Structure of `get_rgb_avg` -/

/-- The function `get_rgb_avg` is the fold of `avg_rgb` from `(0,0,0)` over the
triples found at `get_rgb_avg_coords`, followed by the overwrite with the
pixel's own triple. -/
theorem get_rgb_avg_eq_fold (src : Int → Nat) (width height row x : Int) :
    get_rgb_avg src width height row x =
      self_overwrite
        (((get_rgb_avg_coords width height row x).map
            fun c => get_rgb_pos src width c.1 c.2).foldl avg_rgb
          { Red := 0, Green := 0, Blue := 0 })
        (get_rgb_pos src width row x) := by
  unfold get_rgb_avg get_rgb_avg_coords self_overwrite
  by_cases h1 : x > 0 <;> by_cases h2 : row > 0 <;> by_cases h3 : row < height <;>
    by_cases h4 : x < width <;> simp [h1, h2, h3, h4]

/-- The overwrite keeps a positive channel of the pixel's own triple. -/
theorem chan_self_overwrite (rgb rgbPixel : RGBValues) (k : Nat)
    (h : 0 < rgbPixel.chan k) :
    (self_overwrite rgb rgbPixel).chan k = rgbPixel.chan k := by
  unfold RGBValues.chan at h ⊢
  unfold self_overwrite
  by_cases h0 : k = 0
  · simp only [h0, if_true] at h ⊢
    simp only [gt_iff_lt, h, if_true]
    split_ifs <;> rfl
  · by_cases h1 : k = 1
    · simp only [h1, if_true, if_false, one_ne_zero] at h ⊢
      simp only [gt_iff_lt, h, if_true]
      split_ifs <;> rfl
    · simp only [h0, h1, if_false] at h ⊢
      simp only [gt_iff_lt, h, if_true]

/-- The selected channel of the triple `get_rgb_pos` returns is the cell read. -/
theorem chan_get_rgb_pos (src : Int → Nat) (width : Int) (row col : Nat) :
    (get_rgb_pos src width row col).chan (select_channel row col)
      = load_u8 src (row * width + col) := by
  have hlt := select_channel_lt row col
  rw [get_rgb_pos_nat]
  unfold RGBValues.chan
  by_cases h0 : select_channel row col = 0
  · simp [h0]
  · by_cases h1 : select_channel row col = 1
    · simp [h1]
    · have h2 : select_channel row col = 2 := by omega
      simp [h2]

/-- A successful call of the encoder wrote the header and the pixel loop. -/
theorem written_of_ret_zero (ff_alloc_packet2 : Int → Int) (avctx : AVCodecContext)
    (frame2 : AVFrame) (got_packet : Int)
    (hok : (spff_encode_frame ff_alloc_packet2 avctx frame2 got_packet).ret = 0) :
    (spff_encode_frame ff_alloc_packet2 avctx frame2 got_packet).written
      = bytestream_put_le32 avctx.width ++ bytestream_put_le32 avctx.height
          ++ encode_pixels frame2 avctx.width avctx.height := by
  unfold spff_encode_frame at hok ⊢
  simp only at hok ⊢
  split_ifs at hok ⊢ with h
  · simp only at hok
    omega
  · rfl

/-- The size `spff_encode_frame` passes to the allocator. -/
theorem requested_eq (ff_alloc_packet2 : Int → Int) (avctx : AVCodecContext)
    (frame2 : AVFrame) (got_packet : Int) :
    (spff_encode_frame ff_alloc_packet2 avctx frame2 got_packet).requested
      = wrap_int32 (avctx.height * avctx.width + HEADER_SIZE) := by
  unfold spff_encode_frame
  simp only
  split_ifs
  · simp only
  · simp only

/-- The return value of `spff_encode_frame`: the allocator's code when it is
negative, `0` otherwise. -/
theorem ret_eq (ff_alloc_packet2 : Int → Int) (avctx : AVCodecContext)
    (frame2 : AVFrame) (got_packet : Int) :
    (spff_encode_frame ff_alloc_packet2 avctx frame2 got_packet).ret
      = if ff_alloc_packet2 (wrap_int32 (avctx.height * avctx.width + HEADER_SIZE)) < 0
        then ff_alloc_packet2 (wrap_int32 (avctx.height * avctx.width + HEADER_SIZE))
        else 0 := by
  unfold spff_encode_frame
  simp only
  split_ifs
  · simp only
  · simp only

/-- A successful call stores eight header bytes and the pixel loop's bytes. -/
theorem length_written_of_ret_zero (ff_alloc_packet2 : Int → Int) (avctx : AVCodecContext)
    (frame2 : AVFrame) (got_packet : Int)
    (hok : (spff_encode_frame ff_alloc_packet2 avctx frame2 got_packet).ret = 0) :
    (spff_encode_frame ff_alloc_packet2 avctx frame2 got_packet).written.length
      = 8 + (encode_pixels frame2 avctx.width avctx.height).length := by
  rw [written_of_ret_zero _ _ _ _ hok]
  simp only [List.length_append, bytestream_put_le32, List.length_cons, List.length_nil]

/-- The neighbour coordinates of an in-range pixel are never negative and
exceed the last row and the last column by at most one. -/
theorem get_rgb_avg_coords_range (W H row col : Nat) (hrow : row < H) (hcol : col < W) :
    ∀ c ∈ get_rgb_avg_coords W H row col,
      0 ≤ c.1 ∧ c.1 ≤ (H : Int) ∧ 0 ≤ c.2 ∧ c.2 ≤ (W : Int) := by
  unfold get_rgb_avg_coords
  split_ifs <;> simp <;> omega

/-- For the last pixel of any image, `get_rgb_avg` asks `get_rgb_pos` for the
coordinate `(H, W)`, one row below and one column right of the image. -/
theorem get_rgb_avg_coords_last (W H : Nat) :
    (((H : Int), (W : Int)) : Int × Int)
      ∈ get_rgb_avg_coords W H ((H : Int) - 1) ((W : Int) - 1) := by
  unfold get_rgb_avg_coords
  have h1 : (W : Int) - 1 < W := by omega
  have h2 : (H : Int) - 1 < H := by omega
  simp [h1, h2]

/-- The three ways out of `spff_decode_frame`. -/
theorem spff_decode_frame_cases (ff_get_buffer : AVCodecContext → Int)
    (avctx : AVCodecContext) (got_frame : Int) (avpkt : AVPacket) :
    (avpkt.size ≤ 8
      ∧ spff_decode_frame ff_get_buffer avctx got_frame avpkt
          = { ret := AVERROR_INVALIDDATA, got_frame := got_frame, avctx := avctx,
              picture := [] })
    ∨ (8 < avpkt.size
      ∧ ff_get_buffer { width := declared_width avpkt, height := declared_height avpkt } < 0
      ∧ spff_decode_frame ff_get_buffer avctx got_frame avpkt
          = { ret := ff_get_buffer
                { width := declared_width avpkt, height := declared_height avpkt }
              got_frame := got_frame
              avctx := { width := declared_width avpkt, height := declared_height avpkt }
              picture := [] })
    ∨ (8 < avpkt.size
      ∧ 0 ≤ ff_get_buffer { width := declared_width avpkt, height := declared_height avpkt }
      ∧ spff_decode_frame ff_get_buffer avctx got_frame avpkt
          = { ret := avpkt.size
              got_frame := 1
              avctx := { width := declared_width avpkt, height := declared_height avpkt }
              picture := (List.range (declared_height avpkt).toNat).map fun (i : Nat) =>
                (List.range (declared_width avpkt).toNat).map fun (j : Nat) =>
                  get_rgb_avg (fun k => avpkt.data (HEADER_SIZE + k))
                    (declared_width avpkt) (declared_height avpkt) (i : Int) (j : Int) }) := by
  unfold spff_decode_frame declared_width declared_height
  dsimp only
  by_cases h1 : avpkt.size ≤ HEADER_SIZE
  · left
    exact ⟨h1, by rw [if_pos h1]⟩
  · right
    have h8 : 8 < avpkt.size := by
      unfold HEADER_SIZE at h1
      omega
    rw [if_neg h1]
    by_cases h2 : ff_get_buffer
        { width := wrap_int32 (bytestream_get_le32 avpkt.data 0),
          height := wrap_int32 (bytestream_get_le32 avpkt.data 4) } < 0
    · left
      exact ⟨h8, h2, by rw [if_pos h2]⟩
    · right
      exact ⟨h8, by omega, by rw [if_neg h2]⟩

/-- At a pixel with `row > 0` and `x > 0` inside the image all four guards of
`get_rgb_avg` hold, and the eight neighbours are folded in the source order:
left, top-left, bottom-left, right, top-right, bottom-right, top, bottom. -/
theorem get_rgb_avg_inner (src : Int → Nat) (W H r0 c0 : Nat)
    (hrow : r0 + 1 < H) (hcol : c0 + 1 < W) :
    get_rgb_avg src W H ((r0 + 1 : Nat) : Int) ((c0 + 1 : Nat) : Int) =
      self_overwrite
        (avg_rgb (avg_rgb (avg_rgb (avg_rgb (avg_rgb (avg_rgb (avg_rgb (avg_rgb
          { Red := 0, Green := 0, Blue := 0 }
          (get_rgb_pos src W ((r0 + 1 : Nat) : Int) (c0 : Nat)))
          (get_rgb_pos src W (r0 : Nat) (c0 : Nat)))
          (get_rgb_pos src W ((r0 + 2 : Nat) : Int) (c0 : Nat)))
          (get_rgb_pos src W ((r0 + 1 : Nat) : Int) ((c0 + 2 : Nat) : Int)))
          (get_rgb_pos src W (r0 : Nat) ((c0 + 2 : Nat) : Int)))
          (get_rgb_pos src W ((r0 + 2 : Nat) : Int) ((c0 + 2 : Nat) : Int)))
          (get_rgb_pos src W (r0 : Nat) ((c0 + 1 : Nat) : Int)))
          (get_rgb_pos src W ((r0 + 2 : Nat) : Int) ((c0 + 1 : Nat) : Int)))
        (get_rgb_pos src W ((r0 + 1 : Nat) : Int) ((c0 + 1 : Nat) : Int)) := by
  have e1 : ((r0 + 1 : Nat) : Int) - 1 = (r0 : Int) := by push_cast; ring
  have e2 : ((r0 + 1 : Nat) : Int) + 1 = ((r0 + 2 : Nat) : Int) := by push_cast; ring
  have e3 : ((c0 + 1 : Nat) : Int) - 1 = (c0 : Int) := by push_cast; ring
  have e4 : ((c0 + 1 : Nat) : Int) + 1 = ((c0 + 2 : Nat) : Int) := by push_cast; ring
  have g1 : ((c0 + 1 : Nat) : Int) > 0 := by omega
  have g2 : ((r0 + 1 : Nat) : Int) > 0 := by omega
  have g3 : ((r0 + 1 : Nat) : Int) < (H : Int) := by omega
  have g4 : ((c0 + 1 : Nat) : Int) < (W : Int) := by omega
  unfold get_rgb_avg self_overwrite
  simp only [g1, g2, g3, g4, if_true, e1, e2, e3, e4]

/-- In a memory that holds the encoder's pixel bytes, the cell `get_rgb_pos`
reads for an in-range pixel is the selected channel of the source pixel. -/
theorem load_payload (frame2 : AVFrame) (W H : Nat) (src : Int → Nat)
    (hsrc : ∀ k : Nat, k < W * H → src k = (encode_pixels frame2 W H).getD k 0)
    (row col : Nat) (hrow : row < H) (hcol : col < W) :
    load_u8 src ((row : Int) * (W : Int) + (col : Int))
      = (get_pixel_rgb frame2 row col).chan (select_channel row col) := by
  have hidx : row * W + col < W * H := by
    have : (row + 1) * W ≤ H * W := Nat.mul_le_mul_right W (by omega)
    rw [Nat.succ_mul, Nat.mul_comm H W] at this
    omega
  have hcast : (row : Int) * (W : Int) + (col : Int) = ((row * W + col : Nat) : Int) := by
    push_cast
    ring
  unfold load_u8
  rw [hcast, hsrc _ hidx, List.getD_eq_getElem?_getD,
    getElem?_encode_pixels frame2 W H row col hrow hcol]
  exact Nat.mod_eq_of_lt (chan_get_pixel_rgb_lt frame2 row col _)

/-- Red channel of `avg_rgb`. -/
theorem avg_rgb_Red (first second : RGBValues) :
    (avg_rgb first second).Red
      = if second.Red > 0 then ((first.Red + second.Red) / 2) % 256 else first.Red := by
  unfold avg_rgb
  split_ifs <;> rfl

/-- Green channel of `avg_rgb`. -/
theorem avg_rgb_Green (first second : RGBValues) :
    (avg_rgb first second).Green
      = if second.Green > 0 then ((first.Green + second.Green) / 2) % 256
        else first.Green := by
  unfold avg_rgb
  split_ifs <;> rfl

/-- Blue channel of `avg_rgb`. -/
theorem avg_rgb_Blue (first second : RGBValues) :
    (avg_rgb first second).Blue
      = if second.Blue > 0 then ((first.Blue + second.Blue) / 2) % 256 else first.Blue := by
  unfold avg_rgb
  split_ifs <;> rfl

/-- Red channel after the overwrite. -/
theorem self_overwrite_Red (rgb rgbPixel : RGBValues) :
    (self_overwrite rgb rgbPixel).Red
      = if rgbPixel.Red > 0 then rgbPixel.Red else rgb.Red := by
  unfold self_overwrite
  split_ifs <;> rfl

/-- Green channel after the overwrite. -/
theorem self_overwrite_Green (rgb rgbPixel : RGBValues) :
    (self_overwrite rgb rgbPixel).Green
      = if rgbPixel.Green > 0 then rgbPixel.Green else rgb.Green := by
  unfold self_overwrite
  split_ifs <;> rfl

/-- Blue channel after the overwrite. -/
theorem self_overwrite_Blue (rgb rgbPixel : RGBValues) :
    (self_overwrite rgb rgbPixel).Blue
      = if rgbPixel.Blue > 0 then rgbPixel.Blue else rgb.Blue := by
  unfold self_overwrite
  split_ifs <;> rfl

/-- The selected channel depends on the row parity and the column modulo 3. -/
theorem select_channel_shift (r0 c0 i j : Nat) :
    select_channel (r0 + i) (c0 + j) = (c0 % 3 + j + ((r0 % 2 + i) % 2) * 2) % 3 := by
  unfold select_channel
  omega

/-- Three halvings of a non-zero byte fall short of it. -/
theorem three_halvings_lt (c : Nat) (hc : c ≠ 0) : three_halvings c < c := by
  unfold three_halvings
  omega

/-- The pixel loop's output depends on the frame only through the selected
channel of each pixel. -/
theorem encode_pixels_congr (f1 f2 : AVFrame) (W H : Nat)
    (hsel : ∀ row col : Nat, row < H → col < W →
      (get_pixel_rgb f1 row col).chan (select_channel row col)
        = (get_pixel_rgb f2 row col).chan (select_channel row col)) :
    encode_pixels f1 W H = encode_pixels f2 W H := by
  apply List.ext_getElem?
  intro n
  by_cases hn : n < H * W
  · have hW : 0 < W := by
      rcases Nat.eq_zero_or_pos W with h0 | h0
      · subst h0
        omega
      · exact h0
    have hrow : n / W < H := by
      rw [Nat.div_lt_iff_lt_mul hW]
      exact hn
    have hcol : n % W < W := Nat.mod_lt n hW
    have hidx : n / W * W + n % W = n := Nat.div_add_mod' n W
    have e1 := getElem?_encode_pixels f1 W H (n / W) (n % W) hrow hcol
    have e2 := getElem?_encode_pixels f2 W H (n / W) (n % W) hrow hcol
    rw [hidx] at e1 e2
    rw [e1, e2, hsel _ _ hrow hcol]
  · have l1 := length_encode_pixels f1 W H
    have l2 := length_encode_pixels f2 W H
    rw [List.getElem?_eq_none (by omega), List.getElem?_eq_none (by omega)]

/-- The result of `avg_rgb`, one channel at a time. -/
theorem chan_avg_rgb (first second : RGBValues) (k : Nat) :
    (avg_rgb first second).chan k = avg_u8 (first.chan k) (second.chan k) := by
  unfold RGBValues.chan avg_u8
  rw [avg_rgb_Red, avg_rgb_Green, avg_rgb_Blue]
  split_ifs <;> rfl

/-- A contribution of `(0,0,0)` leaves the accumulator as it is. -/
theorem avg_rgb_zero (a : RGBValues) :
    avg_rgb a { Red := 0, Green := 0, Blue := 0 } = a := by
  rw [RGBValues.ext_iff, avg_rgb_Red, avg_rgb_Green, avg_rgb_Blue]
  simp

/-- A cell holding `0` gives the triple `(0,0,0)`, whatever the coordinate. -/
theorem get_rgb_pos_zero (src : Int → Nat) (width row x : Int)
    (h0 : load_u8 src (row * width + x) = 0) :
    get_rgb_pos src width row x = { Red := 0, Green := 0, Blue := 0 } := by
  unfold get_rgb_pos
  simp only [h0]
  split_ifs <;> rfl

/-- Dropping a `(0,0,0)` entry from the list does not change the fold. -/
theorem foldl_avg_rgb_eraseIdx (l : List RGBValues) (a : RGBValues) (i : Nat)
    (hi : l[i]? = some { Red := 0, Green := 0, Blue := 0 }) :
    l.foldl avg_rgb a = (l.eraseIdx i).foldl avg_rgb a := by
  induction l generalizing a i with
  | nil => simp at hi
  | cons head tail ih =>
    cases i with
    | zero =>
      simp only [List.getElem?_cons_zero, Option.some.injEq] at hi
      subst hi
      simp only [List.foldl_cons, List.eraseIdx_cons_zero, avg_rgb_zero]
    | succ n =>
      simp only [List.getElem?_cons_succ] at hi
      simp only [List.foldl_cons, List.eraseIdx_cons_succ]
      exact ih (avg_rgb a head) n hi

/-- Mapping commutes with dropping an entry. -/
theorem map_eraseIdx_comm {α β : Type} (f : α → β) (l : List α) (i : Nat) :
    (l.eraseIdx i).map f = (l.map f).eraseIdx i := by
  induction l generalizing i with
  | nil => rfl
  | cons head tail ih =>
    cases i with
    | zero => rfl
    | succ n =>
      simp only [List.eraseIdx_cons_succ, List.map_cons, ih]

/-- When all four guards hold, `get_rgb_avg` asks for the eight neighbours. -/
theorem get_rgb_avg_coords_inner (width height row x : Int)
    (h1 : x > 0) (h2 : x < width) (h3 : row > 0) (h4 : row < height) :
    get_rgb_avg_coords width height row x
      = [(row, x - 1), (row - 1, x - 1), (row + 1, x - 1), (row, x + 1),
         (row - 1, x + 1), (row + 1, x + 1), (row - 1, x), (row + 1, x)] := by
  unfold get_rgb_avg_coords
  simp only [h1, h2, h3, h4, if_true, List.cons_append, List.nil_append]

/-- When all four guards hold, `get_rgb_avg` is the neighbour fold followed by
the overwrite. -/
theorem get_rgb_avg_neighbour_fold (src : Int → Nat) (width height row x : Int)
    (h1 : x > 0) (h2 : x < width) (h3 : row > 0) (h4 : row < height) :
    get_rgb_avg src width height row x
      = self_overwrite (neighbour_fold src width row x) (get_rgb_pos src width row x) := by
  rw [get_rgb_avg_eq_fold, get_rgb_avg_coords_inner width height row x h1 h2 h3 h4]
  rfl

/-- The overwrite, one channel at a time. -/
theorem chan_self_overwrite_eq (rgb rgbPixel : RGBValues) (k : Nat) :
    (self_overwrite rgb rgbPixel).chan k
      = if rgbPixel.chan k > 0 then rgbPixel.chan k else rgb.chan k := by
  unfold RGBValues.chan
  rw [self_overwrite_Red, self_overwrite_Green, self_overwrite_Blue]
  split_ifs <;> rfl

/-- The neighbour fold at `(r0 + 1, c0 + 1)`, with the neighbours' coordinates
as natural numbers. -/
theorem neighbour_fold_inner (src : Int → Nat) (W r0 c0 : Nat) :
    neighbour_fold src W ((r0 + 1 : Nat) : Int) ((c0 + 1 : Nat) : Int)
      = avg_rgb (avg_rgb (avg_rgb (avg_rgb (avg_rgb (avg_rgb (avg_rgb (avg_rgb
          { Red := 0, Green := 0, Blue := 0 }
          (get_rgb_pos src W ((r0 + 1 : Nat) : Int) (c0 : Nat)))
          (get_rgb_pos src W (r0 : Nat) (c0 : Nat)))
          (get_rgb_pos src W ((r0 + 2 : Nat) : Int) (c0 : Nat)))
          (get_rgb_pos src W ((r0 + 1 : Nat) : Int) ((c0 + 2 : Nat) : Int)))
          (get_rgb_pos src W (r0 : Nat) ((c0 + 2 : Nat) : Int)))
          (get_rgb_pos src W ((r0 + 2 : Nat) : Int) ((c0 + 2 : Nat) : Int)))
          (get_rgb_pos src W (r0 : Nat) ((c0 + 1 : Nat) : Int)))
          (get_rgb_pos src W ((r0 + 2 : Nat) : Int) ((c0 + 1 : Nat) : Int)) := by
  have e1 : ((r0 + 1 : Nat) : Int) - 1 = (r0 : Int) := by push_cast; ring
  have e2 : ((r0 + 1 : Nat) : Int) + 1 = ((r0 + 2 : Nat) : Int) := by push_cast; ring
  have e3 : ((c0 + 1 : Nat) : Int) - 1 = (c0 : Int) := by push_cast; ring
  have e4 : ((c0 + 1 : Nat) : Int) + 1 = ((c0 + 2 : Nat) : Int) := by push_cast; ring
  unfold neighbour_fold
  simp only [e1, e2, e3, e4, List.foldl_cons, List.foldl_nil]

/-- A contribution of `0` leaves the accumulator byte as it is. -/
theorem avg_u8_zero (a : Nat) : avg_u8 a 0 = a := by
  unfold avg_u8
  simp

/-- Channel `k` of the triple `get_rgb_pos` returns is the neighbour's
contribution to channel `k`. -/
theorem chan_get_rgb_pos_eq (src : Int → Nat) (W r c k : Nat) (hk : k < 3) :
    (get_rgb_pos src W r c).chan k = channel_sample src W k r c := by
  have hlt := select_channel_lt r c
  rw [get_rgb_pos_nat]
  unfold RGBValues.chan channel_sample stored_byte
  by_cases h0 : select_channel r c = 0
  · rw [h0]
    interval_cases k <;> simp
  · by_cases h1 : select_channel r c = 1
    · rw [h1]
      interval_cases k <;> simp
    · have h2 : select_channel r c = 2 := by omega
      rw [h2]
      interval_cases k <;> simp

/-- Channel `k` of the neighbour fold: the eight contributions to channel `k`,
folded with `avg_u8` in the source order. -/
theorem chan_neighbour_fold (src : Int → Nat) (W r0 c0 k : Nat) (hk : k < 3) :
    (neighbour_fold src W ((r0 + 1 : Nat) : Int) ((c0 + 1 : Nat) : Int)).chan k
      = avg_u8 (avg_u8 (avg_u8 (avg_u8 (avg_u8 (avg_u8 (avg_u8 (avg_u8 0
          (channel_sample src W k (r0 + 1) c0))
          (channel_sample src W k r0 c0))
          (channel_sample src W k (r0 + 2) c0))
          (channel_sample src W k (r0 + 1) (c0 + 2)))
          (channel_sample src W k r0 (c0 + 2)))
          (channel_sample src W k (r0 + 2) (c0 + 2)))
          (channel_sample src W k r0 (c0 + 1)))
          (channel_sample src W k (r0 + 2) (c0 + 1)) := by
  rw [neighbour_fold_inner]
  simp only [chan_avg_rgb, chan_get_rgb_pos_eq _ _ _ _ _ hk]
  have hz : ({ Red := 0, Green := 0, Blue := 0 } : RGBValues).chan k = 0 := by
    unfold RGBValues.chan
    split_ifs <;> rfl
  rw [hz]

/-- Stored channels of the eight neighbours of `(r0 + 1, c0 + 1)` on an even
row, relative to the pixel's own channel: left, top-left, bottom-left, right,
top-right, bottom-right, top, bottom. -/
theorem neighbour_select_even (r0 c0 : Nat) (hpar : (r0 + 1) % 2 = 0) :
    select_channel (r0 + 1) c0 = (select_channel (r0 + 1) (c0 + 1) + 2) % 3
    ∧ select_channel r0 c0 = (select_channel (r0 + 1) (c0 + 1) + 1) % 3
    ∧ select_channel (r0 + 2) c0 = (select_channel (r0 + 1) (c0 + 1) + 1) % 3
    ∧ select_channel (r0 + 1) (c0 + 2) = (select_channel (r0 + 1) (c0 + 1) + 1) % 3
    ∧ select_channel r0 (c0 + 2) = select_channel (r0 + 1) (c0 + 1)
    ∧ select_channel (r0 + 2) (c0 + 2) = select_channel (r0 + 1) (c0 + 1)
    ∧ select_channel r0 (c0 + 1) = (select_channel (r0 + 1) (c0 + 1) + 2) % 3
    ∧ select_channel (r0 + 2) (c0 + 1) = (select_channel (r0 + 1) (c0 + 1) + 2) % 3 := by
  unfold select_channel
  refine ⟨?_, ?_, ?_, ?_, ?_, ?_, ?_, ?_⟩ <;> omega

/-- Stored channels of the eight neighbours of `(r0 + 1, c0 + 1)` on an odd
row, in the same order. -/
theorem neighbour_select_odd (r0 c0 : Nat) (hpar : (r0 + 1) % 2 = 1) :
    select_channel (r0 + 1) c0 = (select_channel (r0 + 1) (c0 + 1) + 2) % 3
    ∧ select_channel r0 c0 = select_channel (r0 + 1) (c0 + 1)
    ∧ select_channel (r0 + 2) c0 = select_channel (r0 + 1) (c0 + 1)
    ∧ select_channel (r0 + 1) (c0 + 2) = (select_channel (r0 + 1) (c0 + 1) + 1) % 3
    ∧ select_channel r0 (c0 + 2) = (select_channel (r0 + 1) (c0 + 1) + 2) % 3
    ∧ select_channel (r0 + 2) (c0 + 2) = (select_channel (r0 + 1) (c0 + 1) + 2) % 3
    ∧ select_channel r0 (c0 + 1) = (select_channel (r0 + 1) (c0 + 1) + 1) % 3
    ∧ select_channel (r0 + 2) (c0 + 1) = (select_channel (r0 + 1) (c0 + 1) + 1) % 3 := by
  unfold select_channel
  refine ⟨?_, ?_, ?_, ?_, ?_, ?_, ?_, ?_⟩ <;> omega

/-- On an even row the three channels of the neighbour fold, by the neighbours
that feed them. -/
theorem neighbour_fold_even (src : Int → Nat) (W r0 c0 : Nat) (hpar : (r0 + 1) % 2 = 0) :
    (neighbour_fold src W ((r0 + 1 : Nat) : Int) ((c0 + 1 : Nat) : Int)).chan
          ((select_channel (r0 + 1) (c0 + 1) + 1) % 3)
        = avg_u8 (avg_u8 (avg_u8 0 (stored_byte src W r0 c0)) (stored_byte src W (r0 + 2) c0))
            (stored_byte src W (r0 + 1) (c0 + 2))
      ∧ (neighbour_fold src W ((r0 + 1 : Nat) : Int) ((c0 + 1 : Nat) : Int)).chan
          ((select_channel (r0 + 1) (c0 + 1) + 2) % 3)
        = avg_u8 (avg_u8 (avg_u8 0 (stored_byte src W (r0 + 1) c0))
            (stored_byte src W r0 (c0 + 1))) (stored_byte src W (r0 + 2) (c0 + 1))
      ∧ (neighbour_fold src W ((r0 + 1 : Nat) : Int) ((c0 + 1 : Nat) : Int)).chan
          (select_channel (r0 + 1) (c0 + 1))
        = avg_u8 (avg_u8 0 (stored_byte src W r0 (c0 + 2)))
            (stored_byte src W (r0 + 2) (c0 + 2)) := by
  have hk := select_channel_lt (r0 + 1) (c0 + 1)
  obtain ⟨n1, n2, n3, n4, n5, n6, n7, n8⟩ := neighbour_select_even r0 c0 hpar
  generalize select_channel (r0 + 1) (c0 + 1) = k at hk n1 n2 n3 n4 n5 n6 n7 n8 ⊢
  have d1 : (k + 2) % 3 ≠ (k + 1) % 3 := by omega
  have d2 : (k + 1) % 3 ≠ (k + 2) % 3 := by omega
  have d3 : k ≠ (k + 1) % 3 := by omega
  have d4 : k ≠ (k + 2) % 3 := by omega
  have d5 : (k + 1) % 3 ≠ k := by omega
  have d6 : (k + 2) % 3 ≠ k := by omega
  refine ⟨?_, ?_, ?_⟩
  · rw [chan_neighbour_fold src W r0 c0 _ (by omega)]
    simp only [channel_sample, n1, n2, n3, n4, n5, n6, n7, n8, d1, d3, if_true, if_false,
      avg_u8_zero]
  · rw [chan_neighbour_fold src W r0 c0 _ (by omega)]
    simp only [channel_sample, n1, n2, n3, n4, n5, n6, n7, n8, d2, d4, if_true, if_false,
      avg_u8_zero]
  · rw [chan_neighbour_fold src W r0 c0 _ hk]
    simp only [channel_sample, n1, n2, n3, n4, n5, n6, n7, n8, d5, d6, if_true, if_false,
      avg_u8_zero]

/-- On an odd row the three channels of the neighbour fold, by the neighbours
that feed them. -/
theorem neighbour_fold_odd (src : Int → Nat) (W r0 c0 : Nat) (hpar : (r0 + 1) % 2 = 1) :
    (neighbour_fold src W ((r0 + 1 : Nat) : Int) ((c0 + 1 : Nat) : Int)).chan
          ((select_channel (r0 + 1) (c0 + 1) + 1) % 3)
        = avg_u8 (avg_u8 (avg_u8 0 (stored_byte src W (r0 + 1) (c0 + 2)))
            (stored_byte src W r0 (c0 + 1))) (stored_byte src W (r0 + 2) (c0 + 1))
      ∧ (neighbour_fold src W ((r0 + 1 : Nat) : Int) ((c0 + 1 : Nat) : Int)).chan
          ((select_channel (r0 + 1) (c0 + 1) + 2) % 3)
        = avg_u8 (avg_u8 (avg_u8 0 (stored_byte src W (r0 + 1) c0))
            (stored_byte src W r0 (c0 + 2))) (stored_byte src W (r0 + 2) (c0 + 2))
      ∧ (neighbour_fold src W ((r0 + 1 : Nat) : Int) ((c0 + 1 : Nat) : Int)).chan
          (select_channel (r0 + 1) (c0 + 1))
        = avg_u8 (avg_u8 0 (stored_byte src W r0 c0)) (stored_byte src W (r0 + 2) c0) := by
  have hk := select_channel_lt (r0 + 1) (c0 + 1)
  obtain ⟨n1, n2, n3, n4, n5, n6, n7, n8⟩ := neighbour_select_odd r0 c0 hpar
  generalize select_channel (r0 + 1) (c0 + 1) = k at hk n1 n2 n3 n4 n5 n6 n7 n8 ⊢
  have d1 : (k + 2) % 3 ≠ (k + 1) % 3 := by omega
  have d2 : (k + 1) % 3 ≠ (k + 2) % 3 := by omega
  have d3 : k ≠ (k + 1) % 3 := by omega
  have d4 : k ≠ (k + 2) % 3 := by omega
  have d5 : (k + 1) % 3 ≠ k := by omega
  have d6 : (k + 2) % 3 ≠ k := by omega
  refine ⟨?_, ?_, ?_⟩
  · rw [chan_neighbour_fold src W r0 c0 _ (by omega)]
    simp only [channel_sample, n1, n2, n3, n4, n5, n6, n7, n8, d1, d3, if_true, if_false,
      avg_u8_zero]
  · rw [chan_neighbour_fold src W r0 c0 _ (by omega)]
    simp only [channel_sample, n1, n2, n3, n4, n5, n6, n7, n8, d2, d4, if_true, if_false,
      avg_u8_zero]
  · rw [chan_neighbour_fold src W r0 c0 _ hk]
    simp only [channel_sample, n1, n2, n3, n4, n5, n6, n7, n8, d5, d6, if_true, if_false,
      avg_u8_zero]

/-- The triple `get_rgb_pos` returns depends on memory through one cell. -/
theorem get_rgb_pos_congr (src1 src2 : Int → Nat) (width row x : Int)
    (h : src1 (row * width + x) = src2 (row * width + x)) :
    get_rgb_pos src1 width row x = get_rgb_pos src2 width row x := by
  unfold get_rgb_pos load_u8
  rw [h]

/-- For a pixel of the image, `get_rgb_avg` depends on memory only through the
cells at offsets `0 .. H*W + W`. -/
theorem get_rgb_avg_congr (src1 src2 : Int → Nat) (W H row col : Nat)
    (hrow : row < H) (hcol : col < W)
    (hagree : ∀ k : Int, 0 ≤ k → k ≤ (H : Int) * (W : Int) + (W : Int) → src1 k = src2 k) :
    get_rgb_avg src1 W H row col = get_rgb_avg src2 W H row col := by
  have hcell : ∀ r c : Int, 0 ≤ r → r ≤ (H : Int) → 0 ≤ c → c ≤ (W : Int) →
      get_rgb_pos src1 W r c = get_rgb_pos src2 W r c := by
    intro r c hr0 hr1 hc0 hc1
    apply get_rgb_pos_congr
    have h1 : 0 ≤ r * (W : Int) := Int.mul_nonneg hr0 (by omega)
    have h2 : r * (W : Int) ≤ (H : Int) * (W : Int) :=
      Int.mul_le_mul_of_nonneg_right hr1 (by omega)
    exact hagree _ (by omega) (by omega)
  rw [get_rgb_avg_eq_fold, get_rgb_avg_eq_fold]
  have hmap : (get_rgb_avg_coords W H row col).map (fun c => get_rgb_pos src1 W c.1 c.2)
      = (get_rgb_avg_coords W H row col).map (fun c => get_rgb_pos src2 W c.1 c.2) := by
    apply List.map_congr_left
    intro c hc
    obtain ⟨b1, b2, b3, b4⟩ := get_rgb_avg_coords_range W H row col hrow hcol c hc
    exact hcell c.1 c.2 b1 b2 b3 b4
  rw [hmap, hcell row col (by omega) (by omega) (by omega) (by omega)]

/-- The header reader depends on memory through the four cells it reads. -/
theorem bytestream_get_le32_congr (buf1 buf2 : Int → Nat) (k : Int)
    (h0 : buf1 k = buf2 k) (h1 : buf1 (k + 1) = buf2 (k + 1))
    (h2 : buf1 (k + 2) = buf2 (k + 2)) (h3 : buf1 (k + 3) = buf2 (k + 3)) :
    bytestream_get_le32 buf1 k = bytestream_get_le32 buf2 k := by
  unfold bytestream_get_le32 load_u8
  rw [h0, h1, h2, h3]

/-- The successful way out of `spff_decode_frame`. -/
theorem spff_decode_frame_ok (ff_get_buffer : AVCodecContext → Int)
    (avctx : AVCodecContext) (got_frame : Int) (avpkt : AVPacket)
    (hsize : 8 < avpkt.size)
    (halloc : 0 ≤ ff_get_buffer
      { width := declared_width avpkt, height := declared_height avpkt }) :
    spff_decode_frame ff_get_buffer avctx got_frame avpkt
      = { ret := avpkt.size
          got_frame := 1
          avctx := { width := declared_width avpkt, height := declared_height avpkt }
          picture := (List.range (declared_height avpkt).toNat).map fun (i : Nat) =>
            (List.range (declared_width avpkt).toNat).map fun (j : Nat) =>
              get_rgb_avg (fun k => avpkt.data (HEADER_SIZE + k))
                (declared_width avpkt) (declared_height avpkt) (i : Int) (j : Int) } := by
  rcases spff_decode_frame_cases ff_get_buffer avctx got_frame avpkt with
    ⟨h1, _⟩ | ⟨_, h2, _⟩ | ⟨_, _, h⟩
  · omega
  · omega
  · exact h

/-- The rows of pixels a successful call of `spff_decode_frame` stores. -/
theorem spff_decode_frame_picture (ff_get_buffer : AVCodecContext → Int)
    (avctx : AVCodecContext) (got_frame : Int) (avpkt : AVPacket)
    (hsize : 8 < avpkt.size)
    (halloc : 0 ≤ ff_get_buffer
      { width := declared_width avpkt, height := declared_height avpkt }) :
    (spff_decode_frame ff_get_buffer avctx got_frame avpkt).picture
      = (List.range (declared_height avpkt).toNat).map fun (i : Nat) =>
          (List.range (declared_width avpkt).toNat).map fun (j : Nat) =>
            get_rgb_avg (fun k => avpkt.data (HEADER_SIZE + k))
              (declared_width avpkt) (declared_height avpkt) (i : Int) (j : Int) := by
  rw [spff_decode_frame_ok ff_get_buffer avctx got_frame avpkt hsize halloc]

/-- A packet that holds every cell the decoder reads is decoded from its own
bytes: two memories that agree on the packet give the same result. -/
theorem spff_decode_frame_congr (ff_get_buffer : AVCodecContext → Int)
    (avctx : AVCodecContext) (got_frame : Int) (avpkt : AVPacket) (data2 : Int → Nat)
    (hW : 0 < declared_width avpkt) (hH : 0 < declared_height avpkt)
    (hbig : 8 + declared_height avpkt * declared_width avpkt + declared_width avpkt + 1
      ≤ avpkt.size)
    (halloc : 0 ≤ ff_get_buffer
      { width := declared_width avpkt, height := declared_height avpkt })
    (hagree : ∀ k : Int, 0 ≤ k → k < avpkt.size → data2 k = avpkt.data k) :
    spff_decode_frame ff_get_buffer avctx got_frame { data := data2, size := avpkt.size }
      = spff_decode_frame ff_get_buffer avctx got_frame avpkt := by
  have hprod : 0 ≤ declared_height avpkt * declared_width avpkt :=
    Int.mul_nonneg (by omega) (by omega)
  have hw : declared_width { data := data2, size := avpkt.size } = declared_width avpkt := by
    unfold declared_width
    rw [bytestream_get_le32_congr data2 avpkt.data 0 (hagree _ (by omega) (by omega))
      (hagree _ (by omega) (by omega)) (hagree _ (by omega) (by omega))
      (hagree _ (by omega) (by omega))]
  have hh : declared_height { data := data2, size := avpkt.size } = declared_height avpkt := by
    unfold declared_height
    rw [bytestream_get_le32_congr data2 avpkt.data 4 (hagree _ (by omega) (by omega))
      (hagree _ (by omega) (by omega)) (hagree _ (by omega) (by omega))
      (hagree _ (by omega) (by omega))]
  rw [spff_decode_frame_ok ff_get_buffer avctx got_frame avpkt (by omega) halloc,
    spff_decode_frame_ok ff_get_buffer avctx got_frame { data := data2, size := avpkt.size }
      (by show 8 < avpkt.size; omega) (by rw [hw, hh]; exact halloc)]
  rw [hw, hh]
  obtain ⟨W, hWn⟩ : ∃ W : Nat, declared_width avpkt = (W : Int) :=
    ⟨(declared_width avpkt).toNat, by omega⟩
  obtain ⟨H, hHn⟩ : ∃ H : Nat, declared_height avpkt = (H : Int) :=
    ⟨(declared_height avpkt).toNat, by omega⟩
  rw [hWn, hHn] at hbig hprod ⊢
  simp only [Int.toNat_ofNat]
  have hpic : ∀ i j : Nat, i < H → j < W →
      get_rgb_avg (fun k => data2 (HEADER_SIZE + k)) W H i j
        = get_rgb_avg (fun k => avpkt.data (HEADER_SIZE + k)) W H i j := by
    intro i j hi hj
    apply get_rgb_avg_congr _ _ W H i j hi hj
    intro k hk0 hk1
    unfold HEADER_SIZE
    exact hagree _ (by omega) (by omega)
  have hP : ((List.range H).map fun (i : Nat) => (List.range W).map fun (j : Nat) =>
        get_rgb_avg (fun k => data2 (HEADER_SIZE + k)) W H (i : Int) (j : Int))
      = ((List.range H).map fun (i : Nat) => (List.range W).map fun (j : Nat) =>
        get_rgb_avg (fun k => avpkt.data (HEADER_SIZE + k)) W H (i : Int) (j : Int)) := by
    apply List.map_congr_left
    intro i hi
    apply List.map_congr_left
    intro j hj
    exact hpic i j (List.mem_range.mp hi) (List.mem_range.mp hj)
  exact congrArg (DecodeResult.mk avpkt.size 1 (AVCodecContext.mk (W : Int) (H : Int))) hP

/-- Splitting a fold at the entry `i` of the list. -/
theorem foldl_avg_rgb_split (g : Int × Int → RGBValues) (l : List (Int × Int))
    (a : RGBValues) (i : Nat) (c : Int × Int) (hi : l[i]? = some c) :
    (l.map g).foldl avg_rgb a
      = ((l.drop (i + 1)).map g).foldl avg_rgb
          (avg_rgb (((l.take i).map g).foldl avg_rgb a) (g c)) := by
  induction l generalizing a i with
  | nil => simp at hi
  | cons head tail ih =>
    cases i with
    | zero =>
      simp only [List.getElem?_cons_zero, Option.some.injEq] at hi
      subst hi
      simp only [List.map_cons, List.foldl_cons, List.take_zero, List.map_nil, List.foldl_nil,
        Nat.zero_add, List.drop_succ_cons, List.drop_zero]
    | succ n =>
      simp only [List.getElem?_cons_succ] at hi
      simp only [List.map_cons, List.foldl_cons, List.take_succ_cons, List.drop_succ_cons]
      exact ih (avg_rgb a (g head)) n hi

/-- Where the right neighbour of a last-column pixel sits in the list of
neighbour coordinates. -/
theorem get_rgb_avg_coords_right_index (W H row : Nat) (hW : 0 < W) (hrow : row + 1 < H) :
    (get_rgb_avg_coords W H row ((W : Int) - 1))[if 1 < W then (if 0 < row then 3 else 2)
        else 0]?
      = some ((row : Int), (W : Int) - 1 + 1) := by
  have g2 : (W : Int) - 1 < (W : Int) := by omega
  have g4 : (row : Int) < (H : Int) := by omega
  unfold get_rgb_avg_coords
  by_cases h1 : 1 < W
  · have g1 : (W : Int) - 1 > 0 := by omega
    by_cases h3 : 0 < row
    · have g3 : (row : Int) > 0 := by omega
      simp [h1, h3, g1, g2, g3, g4]
    · have g3 : ¬ (row : Int) > 0 := by omega
      simp [h1, h3, g1, g2, g3, g4]
  · have g1 : ¬ (W : Int) - 1 > 0 := by omega
    simp [h1, g1, g2, g4]

/-- The packet `spff_encode_frame` produces (return value, flag, requested
size, bytes written) depends on the frame only through the selected channel of
each pixel. -/
theorem packet_ignores_unselected_channels (ff_alloc_packet2 : Int → Int)
    (f1 f2 : AVFrame) (got_packet : Int) (W H : Nat)
    (hsel : ∀ row col : Nat, row < H → col < W →
      (get_pixel_rgb f1 row col).chan (select_channel row col)
        = (get_pixel_rgb f2 row col).chan (select_channel row col)) :
    (spff_encode_frame ff_alloc_packet2 { width := W, height := H } f1 got_packet).ret
      = (spff_encode_frame ff_alloc_packet2 { width := W, height := H } f2 got_packet).ret
    ∧ (spff_encode_frame ff_alloc_packet2 { width := W, height := H } f1 got_packet).got_packet
      = (spff_encode_frame ff_alloc_packet2 { width := W, height := H } f2
          got_packet).got_packet
    ∧ (spff_encode_frame ff_alloc_packet2 { width := W, height := H } f1 got_packet).requested
      = (spff_encode_frame ff_alloc_packet2 { width := W, height := H } f2
          got_packet).requested
    ∧ (spff_encode_frame ff_alloc_packet2 { width := W, height := H } f1 got_packet).written
      = (spff_encode_frame ff_alloc_packet2 { width := W, height := H } f2
          got_packet).written := by
  have hpix := encode_pixels_congr f1 f2 W H hsel
  unfold spff_encode_frame
  dsimp only
  rw [hpix]
  by_cases h : ff_alloc_packet2 (wrap_int32 ((H : Int) * (W : Int) + HEADER_SIZE)) < 0
  · rw [if_pos h, if_pos h]
    exact ⟨rfl, rfl, rfl, rfl⟩
  · rw [if_neg h, if_neg h]
    exact ⟨rfl, rfl, rfl, rfl⟩

/-! ## Claims -/

/-- C1 (the code breaks it): the comment of `avg_rgb` promises an average
"ignoring empty channels", yet a contribution met by the empty accumulator is
halved: `avg_rgb (0,0,0) (0,0,50) = (0,0,25)`.  So the 3x3 frame whose pixels
are all `(200, 100, 50)`, encoded by the pixel loop and decoded with
`get_rgb_avg`, does not come back: the centre `(1, 1)`, whose eight neighbours
all lie inside the image, decodes to `(200, 87, 43)`, and the corner `(0, 0)`,
whose three neighbours all lie inside the image, to `(200, 50, 25)`. -/
theorem uniform_roundtrip_not_exact :
    (∀ row, row < 3 → ∀ col, col < 3 →
        get_pixel_rgb uniform_frame row col = { Red := 200, Green := 100, Blue := 50 })
    ∧ get_rgb_avg (ptr_of (encode_pixels uniform_frame 3 3)) 3 3 1 1
        = { Red := 200, Green := 87, Blue := 43 }
    ∧ get_rgb_avg (ptr_of (encode_pixels uniform_frame 3 3)) 3 3 1 1
        ≠ { Red := 200, Green := 100, Blue := 50 }
    ∧ avg_rgb { Red := 0, Green := 0, Blue := 0 } { Red := 0, Green := 0, Blue := 50 }
        = { Red := 0, Green := 0, Blue := 25 }
    ∧ get_rgb_avg_coords 3 3 0 0 = [(0, 1), (1, 1), (1, 0)]
    ∧ get_rgb_avg (ptr_of (encode_pixels uniform_frame 3 3)) 3 3 0 0
        = { Red := 200, Green := 50, Blue := 25 } := by
  decide

/-- The general form of the shortfall shown by `uniform_roundtrip_not_exact`:
in a frame whose pixels are all `(r, g, b)` with `r, g, b ≠ 0`, every pixel
whose eight neighbours lie inside the image is decoded with its selected
channel exact and with each other channel `c` at `three_halvings c`, which
is below `c` (`three_halvings_lt`). -/
theorem uniform_interior_falls_short (frame2 : AVFrame) (W H row col : Nat) (src : Int → Nat)
    (r g b : Nat)
    (huni : ∀ i j : Nat, i < H → j < W →
      get_pixel_rgb frame2 i j = { Red := r, Green := g, Blue := b })
    (hsrc : ∀ k : Nat, k < W * H → src k = (encode_pixels frame2 W H).getD k 0)
    (hr : r ≠ 0) (hg : g ≠ 0) (hb : b ≠ 0)
    (hrow0 : 0 < row) (hrow1 : row + 1 < H) (hcol0 : 0 < col) (hcol1 : col + 1 < W) :
    get_rgb_avg src W H row col =
      { Red := if select_channel row col = 0 then r else three_halvings r
        Green := if select_channel row col = 1 then g else three_halvings g
        Blue := if select_channel row col = 2 then b else three_halvings b } := by
  obtain ⟨r0, rfl⟩ : ∃ r0, row = r0 + 1 := ⟨row - 1, by omega⟩
  obtain ⟨c0, rfl⟩ : ∃ c0, col = c0 + 1 := ⟨col - 1, by omega⟩
  have hbytes : r < 256 ∧ g < 256 ∧ b < 256 := by
    have h0 := chan_get_pixel_rgb_lt frame2 0 0 0
    have h1 := chan_get_pixel_rgb_lt frame2 0 0 1
    have h2 := chan_get_pixel_rgb_lt frame2 0 0 2
    rw [huni 0 0 (by omega) (by omega)] at h0 h1 h2
    exact ⟨by simpa [RGBValues.chan] using h0, by simpa [RGBValues.chan] using h1,
      by simpa [RGBValues.chan] using h2⟩
  have hpos : ∀ i j : Nat, i < H → j < W → get_rgb_pos src W i j =
      if select_channel i j = 0 then { Red := r, Green := 0, Blue := 0 }
      else if select_channel i j = 1 then { Red := 0, Green := g, Blue := 0 }
      else { Red := 0, Green := 0, Blue := b } := by
    intro i j hi hj
    have hlt := select_channel_lt i j
    rw [get_rgb_pos_nat, load_payload frame2 W H src hsrc i j hi hj, huni i j hi hj]
    unfold RGBValues.chan
    by_cases h0 : select_channel i j = 0
    · simp [h0]
    · by_cases h1 : select_channel i j = 1
      · simp [h1]
      · simp [h0, h1]
  have i00 := hpos (r0 + 0) (c0 + 0) (by omega) (by omega)
  have i01 := hpos (r0 + 0) (c0 + 1) (by omega) (by omega)
  have i02 := hpos (r0 + 0) (c0 + 2) (by omega) (by omega)
  have i10 := hpos (r0 + 1) (c0 + 0) (by omega) (by omega)
  have i11 := hpos (r0 + 1) (c0 + 1) (by omega) (by omega)
  have i12 := hpos (r0 + 1) (c0 + 2) (by omega) (by omega)
  have i20 := hpos (r0 + 2) (c0 + 0) (by omega) (by omega)
  have i21 := hpos (r0 + 2) (c0 + 1) (by omega) (by omega)
  have i22 := hpos (r0 + 2) (c0 + 2) (by omega) (by omega)
  simp only [select_channel_shift] at i00 i01 i02 i10 i11 i12 i20 i21 i22
  simp only [Nat.add_zero] at i00 i01 i02 i10 i20
  rw [get_rgb_avg_inner src W H r0 c0 (by omega) (by omega),
    i00, i01, i02, i10, i11, i12, i20, i21, i22]
  simp only [select_channel_shift]
  have hp : r0 % 2 = 0 ∨ r0 % 2 = 1 := by omega
  have hq : c0 % 3 = 0 ∨ c0 % 3 = 1 ∨ c0 % 3 = 2 := by omega
  have hr' : 0 < r := by omega
  have hg' : 0 < g := by omega
  have hb' : 0 < b := by omega
  obtain ⟨hr8, hg8, hb8⟩ := hbytes
  have m1r : r / 2 % 256 = r / 2 := by omega
  have m2r : (r / 2 + r) / 2 % 256 = (r / 2 + r) / 2 := by omega
  have m3r : ((r / 2 + r) / 2 + r) / 2 % 256 = ((r / 2 + r) / 2 + r) / 2 := by omega
  have m1g : g / 2 % 256 = g / 2 := by omega
  have m2g : (g / 2 + g) / 2 % 256 = (g / 2 + g) / 2 := by omega
  have m3g : ((g / 2 + g) / 2 + g) / 2 % 256 = ((g / 2 + g) / 2 + g) / 2 := by omega
  have m1b : b / 2 % 256 = b / 2 := by omega
  have m2b : (b / 2 + b) / 2 % 256 = (b / 2 + b) / 2 := by omega
  have m3b : ((b / 2 + b) / 2 + b) / 2 % 256 = ((b / 2 + b) / 2 + b) / 2 := by omega
  unfold three_halvings
  rcases hp with hp | hp <;> rcases hq with hq | hq | hq
  all_goals
    simp only [hp, hq]
    norm_num
    rw [RGBValues.ext_iff]
    simp only [avg_rgb_Red, avg_rgb_Green, avg_rgb_Blue, self_overwrite_Red,
      self_overwrite_Green, self_overwrite_Blue]
    simp [hr', hg', hb', m1r, m2r, m3r, m1g, m2g, m3g, m1b, m2b, m3b]

/-- C2: for a pixel `(row, col)` of a `W x H` frame whose selected channel
holds `v ≠ 0`, the triple `get_rgb_avg` computes at `(row, col)` from any
memory that holds the encoder's pixel bytes at offsets `0 .. W*H - 1` has `v`
in that channel, whatever the other cells (inside or past the payload) hold. -/
theorem selected_channel_preserved (frame2 : AVFrame) (W H row col : Nat)
    (src : Int → Nat) (hrow : row < H) (hcol : col < W)
    (hsrc : ∀ k : Nat, k < W * H → src k = (encode_pixels frame2 W H).getD k 0)
    (hv : (get_pixel_rgb frame2 row col).chan (select_channel row col) ≠ 0) :
    (get_rgb_avg src W H row col).chan (select_channel row col)
      = (get_pixel_rgb frame2 row col).chan (select_channel row col) := by
  have hcell := load_payload frame2 W H src hsrc row col hrow hcol
  have hself := chan_get_rgb_pos src W row col
  rw [get_rgb_avg_eq_fold, chan_self_overwrite _ _ _ (by rw [hself, hcell]; omega),
    hself, hcell]

/-- Instance of C2 at pixel `(1, 1)` of the 2x2 scenario frame, whose selected
channel (Red) holds `10`. -/
theorem selected_channel_preserved_witness :
    (get_pixel_rgb scenario_frame 1 1).chan (select_channel 1 1) ≠ 0
    ∧ (get_rgb_avg (ptr_of (encode_pixels scenario_frame 2 2)) 2 2 1 1).chan
          (select_channel 1 1)
        = (get_pixel_rgb scenario_frame 1 1).chan (select_channel 1 1) :=
  ⟨by decide,
   selected_channel_preserved scenario_frame 2 2 1 1
    (ptr_of (encode_pixels scenario_frame 2 2)) (by decide) (by decide)
    (by intro k _; simp [ptr_of]) (by decide)⟩

/-- C3: at every coordinate `row, col ≥ 0` the encoder's `switch` reads, and
`get_rgb_pos` fills, the channel `[Red, Green, Blue][(col + (row mod 2)*2) mod 3]`;
the two other channels of the triple `get_rgb_pos` returns are `0`. -/
theorem encoder_decoder_same_channel (frame2 : AVFrame) (src : Int → Nat) (width : Int)
    (row col : Nat) :
    (select_channel row col = 0
      ∧ encode_channel frame2 row col = (get_pixel_rgb frame2 row col).Red
      ∧ get_rgb_pos src width row col
          = { Red := load_u8 src (row * width + col), Green := 0, Blue := 0 })
    ∨ (select_channel row col = 1
      ∧ encode_channel frame2 row col = (get_pixel_rgb frame2 row col).Green
      ∧ get_rgb_pos src width row col
          = { Red := 0, Green := load_u8 src (row * width + col), Blue := 0 })
    ∨ (select_channel row col = 2
      ∧ encode_channel frame2 row col = (get_pixel_rgb frame2 row col).Blue
      ∧ get_rgb_pos src width row col
          = { Red := 0, Green := 0, Blue := load_u8 src (row * width + col) }) := by
  have hlt := select_channel_lt row col
  rw [get_rgb_pos_nat, encode_channel_nat]
  unfold RGBValues.chan
  by_cases h0 : select_channel row col = 0
  · simp [h0]
  · by_cases h1 : select_channel row col = 1
    · simp [h1]
    · have h2 : select_channel row col = 2 := by omega
      simp [h2]

/-- C5 (fails on the code): for `W = H = 65536` the `int` `n_bytes_image`
wraps to `8`; with a successful allocation the call returns `0`, the size it
requested is `8`, and the header and pixel loop store `8 + 65536 * 65536`
bytes. -/
theorem requested_size_wraps :
    (spff_encode_frame (fun _ => 0) { width := 65536, height := 65536 } blank_frame 0).ret = 0
    ∧ (spff_encode_frame (fun _ => 0) { width := 65536, height := 65536 }
        blank_frame 0).requested = 8
    ∧ (spff_encode_frame (fun _ => 0) { width := 65536, height := 65536 }
        blank_frame 0).written.length = 8 + 65536 * 65536
    ∧ (spff_encode_frame (fun _ => 0) { width := 65536, height := 65536 }
        blank_frame 0).requested ≠ 8 + 65536 * 65536 := by
  have hret : (spff_encode_frame (fun _ => 0) { width := 65536, height := 65536 }
      blank_frame 0).ret = 0 := by
    rw [ret_eq]
    simp
  have hreq : (spff_encode_frame (fun _ => 0) { width := 65536, height := 65536 }
      blank_frame 0).requested = 8 := by
    rw [requested_eq]
    decide
  refine ⟨hret, hreq, ?_, by rw [hreq]; decide⟩
  have hlen := length_encode_pixels blank_frame 65536 65536
  simp only [Nat.cast_ofNat] at hlen
  rw [length_written_of_ret_zero _ _ _ _ hret]
  exact congrArg (fun n => 8 + n) hlen

/-- C5 (amended): when `8 + W*H` fits in an `int`, the size `spff_encode_frame`
requests for the packet is `8 + W*H`, and a successful call stores exactly
`8 + W*H` bytes (header and pixel loop). -/
theorem encoded_size (ff_alloc_packet2 : Int → Int) (frame2 : AVFrame) (got_packet : Int)
    (W H : Nat) (hfit : 8 + W * H < 2147483648)
    (hok : (spff_encode_frame ff_alloc_packet2 { width := W, height := H }
              frame2 got_packet).ret = 0) :
    (spff_encode_frame ff_alloc_packet2 { width := W, height := H }
        frame2 got_packet).requested = ((8 + W * H : Nat) : Int)
    ∧ (spff_encode_frame ff_alloc_packet2 { width := W, height := H }
        frame2 got_packet).written.length = 8 + W * H := by
  constructor
  · have hreq := requested_eq ff_alloc_packet2 { width := W, height := H } frame2 got_packet
    simp only at hreq
    have hcast : (H : Int) * (W : Int) + HEADER_SIZE = ((8 + W * H : Nat) : Int) := by
      unfold HEADER_SIZE
      push_cast
      ring
    rw [hreq, hcast]
    unfold wrap_int32
    simp only
    split_ifs with h <;> omega
  · rw [length_written_of_ret_zero _ _ _ _ hok]
    simp only
    rw [length_encode_pixels, Nat.mul_comm H W]

/-- Instance of the amended C5 on the 2x2 scenario frame. -/
theorem encoded_size_witness :
    (spff_encode_frame (fun _ => 0) { width := (2 : Nat), height := (2 : Nat) }
        scenario_frame 0).requested = ((8 + 2 * 2 : Nat) : Int)
    ∧ (spff_encode_frame (fun _ => 0) { width := (2 : Nat), height := (2 : Nat) }
        scenario_frame 0).written.length = 8 + 2 * 2 :=
  encoded_size (fun _ => 0) scenario_frame 0 2 2 (by decide) (by decide)

/-- C6: for a 2x2 frame with row 0 = `(255,0,0), (0,255,0)` and
row 1 = `(0,0,255), (10,20,30)` the selected channels are Red, Green on row 0
and Blue, Red on row 1, and a successful call of `spff_encode_frame` stores
exactly `02 00 00 00 02 00 00 00 FF FF FF 0A`. -/
theorem scenario_bytes (ff_alloc_packet2 : Int → Int) (frame2 : AVFrame) (got_packet : Int)
    (h00 : get_pixel_rgb frame2 0 0 = { Red := 255, Green := 0, Blue := 0 })
    (h01 : get_pixel_rgb frame2 0 1 = { Red := 0, Green := 255, Blue := 0 })
    (h10 : get_pixel_rgb frame2 1 0 = { Red := 0, Green := 0, Blue := 255 })
    (h11 : get_pixel_rgb frame2 1 1 = { Red := 10, Green := 20, Blue := 30 })
    (hok : (spff_encode_frame ff_alloc_packet2 { width := 2, height := 2 }
              frame2 got_packet).ret = 0) :
    select_channel 0 0 = 0 ∧ select_channel 0 1 = 1
    ∧ select_channel 1 0 = 2 ∧ select_channel 1 1 = 0
    ∧ (spff_encode_frame ff_alloc_packet2 { width := 2, height := 2 }
        frame2 got_packet).written
      = [0x02, 0x00, 0x00, 0x00, 0x02, 0x00, 0x00, 0x00, 0xFF, 0xFF, 0xFF, 0x0A] := by
  refine ⟨by decide, by decide, by decide, by decide, ?_⟩
  rw [written_of_ret_zero _ _ _ _ hok]
  have hpix : encode_pixels frame2 2 2
      = [encode_channel frame2 (0 : Nat) (0 : Nat), encode_channel frame2 (0 : Nat) (1 : Nat),
         encode_channel frame2 (1 : Nat) (0 : Nat), encode_channel frame2 (1 : Nat) (1 : Nat)] := by
    simp [encode_pixels, List.range_succ]
  rw [hpix]
  simp only [encode_channel_nat, h00, h01, h10, h11]
  decide

/-- Instance of C6 on the tightly packed scenario frame. -/
theorem scenario_bytes_witness :
    (spff_encode_frame (fun _ => 0) { width := 2, height := 2 } scenario_frame 0).written
      = [2, 0, 0, 0, 2, 0, 0, 0, 255, 255, 255, 10] :=
  (scenario_bytes (fun _ => 0) scenario_frame 0 (by decide) (by decide) (by decide)
    (by decide) (by decide)).2.2.2.2

/-- C7 (fails on the code): in a 2x2 image the pixel `(1, 1)` makes
`get_rgb_avg` call `get_rgb_pos` at `(2,0)`, `(1,2)`, `(2,2)` and `(2,1)`,
none of which is a pixel of the image; the offsets read, `4, 4, 6, 5`, are
past the `2*2` payload bytes, and the pixel that `spff_decode_frame` stores
for one and the same well-formed 12-byte packet changes with the cells that
follow the packet in memory. -/
theorem neighbour_reads_past_payload :
    get_rgb_avg_coords 2 2 1 1
      = [(1, 0), (0, 0), (2, 0), (1, 2), (0, 2), (2, 2), (0, 1), (2, 1)]
    ∧ ¬ (∀ c ∈ get_rgb_avg_coords 2 2 1 1, 0 ≤ c.1 ∧ c.1 < 2 ∧ 0 ≤ c.2 ∧ c.2 < 2)
    ∧ (get_rgb_avg_coords 2 2 1 1).map (fun c => c.1 * 2 + c.2) = [2, 0, 4, 4, 2, 6, 1, 5]
    ∧ (∀ k : Nat, k < 12 → exact_packet.data k = exact_packet_trailing.data k)
    ∧ (spff_decode_frame (fun _ => 0) { width := 0, height := 0 } 0 exact_packet).picture
        = [[{ Red := 10, Green := 10, Blue := 15 }, { Red := 22, Green := 20, Blue := 22 }],
           [{ Red := 15, Green := 10, Blue := 30 }, { Red := 40, Green := 10, Blue := 22 }]]
    ∧ (spff_decode_frame (fun _ => 0) { width := 0, height := 0 } 0
          exact_packet_trailing).picture
        = [[{ Red := 10, Green := 10, Blue := 15 }, { Red := 22, Green := 20, Blue := 22 }],
           [{ Red := 107, Green := 105, Blue := 30 },
            { Red := 40, Green := 130, Blue := 111 }]] := by
  decide

/-- C8 (fails on the code): a 12-byte packet declaring a 1x1 image (longer than
`8 + 1*1`) and a 9-byte packet declaring a 2x2 image (shorter than `8 + 2*2`)
are both decoded: `spff_decode_frame` returns the packet size, sets
`got_frame` and stores pixels. -/
theorem size_mismatch_accepted :
    (declared_width long_packet = 1 ∧ declared_height long_packet = 1
      ∧ long_packet.size ≠ 8 + 1 * 1
      ∧ spff_decode_frame (fun _ => 0) { width := 0, height := 0 } 0 long_packet
          = { ret := 12, got_frame := 1, avctx := { width := 1, height := 1 },
              picture := [[{ Red := 7, Green := 4, Blue := 4 }]] })
    ∧ (declared_width short_packet = 2 ∧ declared_height short_packet = 2
      ∧ short_packet.size ≠ 8 + 2 * 2
      ∧ (spff_decode_frame (fun _ => 0) { width := 0, height := 0 } 0 short_packet).ret = 9
      ∧ (spff_decode_frame (fun _ => 0) { width := 0, height := 0 } 0
          short_packet).got_frame = 1
      ∧ (spff_decode_frame (fun _ => 0) { width := 0, height := 0 } 0
          short_packet).picture.length = 2) := by
  decide

/-- C8 (amended): `spff_decode_frame` never compares the packet size with
`8 + W*H`.  A packet of at most `8` bytes gets the invalid-data error and no
image; a failing `ff_get_buffer` gets its own code and no image.  A packet
longer than `8 + W*H` is not rejected for its length: when it holds at least
`8 + W*H + W + 1` bytes, so that every cell the decoder reads lies inside the
packet, and frame allocation succeeds, it is decoded (`got_frame` set to `1`,
packet size returned, `H` rows of `W` pixels), and the result is the same for
every memory that holds the packet's bytes. -/
theorem decode_length_not_compared (ff_get_buffer : AVCodecContext → Int)
    (avctx : AVCodecContext) (got_frame : Int) (avpkt : AVPacket) :
    (avpkt.size ≤ 8 →
        (spff_decode_frame ff_get_buffer avctx got_frame avpkt).ret = AVERROR_INVALIDDATA
        ∧ (spff_decode_frame ff_get_buffer avctx got_frame avpkt).got_frame = got_frame
        ∧ (spff_decode_frame ff_get_buffer avctx got_frame avpkt).picture = [])
    ∧ (8 < avpkt.size →
        ff_get_buffer { width := declared_width avpkt, height := declared_height avpkt } < 0 →
        (spff_decode_frame ff_get_buffer avctx got_frame avpkt).ret
            = ff_get_buffer { width := declared_width avpkt, height := declared_height avpkt }
        ∧ (spff_decode_frame ff_get_buffer avctx got_frame avpkt).got_frame = got_frame
        ∧ (spff_decode_frame ff_get_buffer avctx got_frame avpkt).picture = [])
    ∧ (0 < declared_width avpkt → 0 < declared_height avpkt →
        8 + declared_height avpkt * declared_width avpkt + declared_width avpkt + 1
          ≤ avpkt.size →
        0 ≤ ff_get_buffer { width := declared_width avpkt, height := declared_height avpkt } →
        (spff_decode_frame ff_get_buffer avctx got_frame avpkt).ret = avpkt.size
        ∧ (spff_decode_frame ff_get_buffer avctx got_frame avpkt).got_frame = 1
        ∧ (spff_decode_frame ff_get_buffer avctx got_frame avpkt).picture.length
            = (declared_height avpkt).toNat
        ∧ (∀ line ∈ (spff_decode_frame ff_get_buffer avctx got_frame avpkt).picture,
            line.length = (declared_width avpkt).toNat)
        ∧ ∀ data2 : Int → Nat,
            (∀ k : Int, 0 ≤ k → k < avpkt.size → data2 k = avpkt.data k) →
            spff_decode_frame ff_get_buffer avctx got_frame
                { data := data2, size := avpkt.size }
              = spff_decode_frame ff_get_buffer avctx got_frame avpkt) := by
  refine ⟨?_, ?_, ?_⟩
  · intro hsize
    rcases spff_decode_frame_cases ff_get_buffer avctx got_frame avpkt with
      ⟨_, h⟩ | ⟨h1, _, _⟩ | ⟨h1, _, _⟩
    · rw [h]
      exact ⟨rfl, rfl, rfl⟩
    · omega
    · omega
  · intro hsize hfail
    rcases spff_decode_frame_cases ff_get_buffer avctx got_frame avpkt with
      ⟨h1, _⟩ | ⟨_, _, h⟩ | ⟨_, h2, _⟩
    · omega
    · rw [h]
      exact ⟨rfl, rfl, rfl⟩
    · omega
  · intro hW hH hbig halloc
    have hprod : 0 ≤ declared_height avpkt * declared_width avpkt :=
      Int.mul_nonneg (by omega) (by omega)
    refine ⟨?_, ?_, ?_, ?_, ?_⟩
    · rw [spff_decode_frame_ok ff_get_buffer avctx got_frame avpkt (by omega) halloc]
    · rw [spff_decode_frame_ok ff_get_buffer avctx got_frame avpkt (by omega) halloc]
    · rw [spff_decode_frame_ok ff_get_buffer avctx got_frame avpkt (by omega) halloc]
      simp only [List.length_map, List.length_range]
    · rw [spff_decode_frame_picture ff_get_buffer avctx got_frame avpkt (by omega) halloc]
      intro line hline
      obtain ⟨i, _, hi⟩ := List.mem_map.mp hline
      rw [← hi, List.length_map, List.length_range]
    · intro data2 hagree
      exact spff_decode_frame_congr ff_get_buffer avctx got_frame avpkt data2 hW hH hbig
        halloc hagree

/-- Instance of the amended C8 on the 12-byte packet that declares a 1x1 image:
all reads stay inside the packet, and it is decoded. -/
theorem decode_length_not_compared_witness :
    (8 + declared_height long_packet * declared_width long_packet
        + declared_width long_packet + 1 ≤ long_packet.size
      ∧ long_packet.size ≠ 8 + declared_height long_packet * declared_width long_packet)
    ∧ (spff_decode_frame (fun _ => 0) { width := 0, height := 0 } 0 long_packet).ret
        = long_packet.size
    ∧ (spff_decode_frame (fun _ => 0) { width := 0, height := 0 } 0 long_packet).got_frame
        = 1 :=
  ⟨by decide,
   ((decode_length_not_compared (fun _ => 0) { width := 0, height := 0 } 0
      long_packet).2.2 (by decide) (by decide) (by decide) (by decide)).1,
   ((decode_length_not_compared (fun _ => 0) { width := 0, height := 0 } 0
      long_packet).2.2 (by decide) (by decide) (by decide) (by decide)).2.1⟩

/-- C9 (fails on the code): a packet declaring width `0` and one declaring
height `-1` are both accepted when the frame allocator succeeds:
`spff_decode_frame` returns the packet size and sets `got_frame`. -/
theorem nonpositive_dimensions_accepted :
    (declared_width zero_width_packet = 0 ∧ declared_height zero_width_packet = 1
      ∧ spff_decode_frame (fun _ => 0) { width := 0, height := 0 } 0 zero_width_packet
          = { ret := 9, got_frame := 1, avctx := { width := 0, height := 1 },
              picture := [[]] })
    ∧ (declared_width negative_height_packet = 1
      ∧ declared_height negative_height_packet = -1
      ∧ spff_decode_frame (fun _ => 0) { width := 0, height := 0 } 0 negative_height_packet
          = { ret := 9, got_frame := 1, avctx := { width := 1, height := -1 },
              picture := [] }) := by
  decide

/-- C9 (amended): `spff_decode_frame` has no check of the declared dimensions.
For a packet of more than `8` bytes declaring a width or height `≤ 0`, it fails
only if `ff_get_buffer` fails, returning the allocator's code with `got_frame`
untouched; if the allocator succeeds it stores no pixel, sets `got_frame` to
`1` and returns the packet size. -/
theorem decode_nonpositive_dimensions (ff_get_buffer : AVCodecContext → Int)
    (avctx : AVCodecContext) (got_frame : Int) (avpkt : AVPacket)
    (hsize : 8 < avpkt.size)
    (hdim : declared_width avpkt ≤ 0 ∨ declared_height avpkt ≤ 0) :
    (ff_get_buffer { width := declared_width avpkt, height := declared_height avpkt } < 0
      ∧ (spff_decode_frame ff_get_buffer avctx got_frame avpkt).ret
          = ff_get_buffer { width := declared_width avpkt, height := declared_height avpkt }
      ∧ (spff_decode_frame ff_get_buffer avctx got_frame avpkt).got_frame = got_frame
      ∧ (spff_decode_frame ff_get_buffer avctx got_frame avpkt).picture = [])
    ∨ (0 ≤ ff_get_buffer { width := declared_width avpkt, height := declared_height avpkt }
      ∧ (spff_decode_frame ff_get_buffer avctx got_frame avpkt).ret = avpkt.size
      ∧ (spff_decode_frame ff_get_buffer avctx got_frame avpkt).got_frame = 1
      ∧ ∀ line ∈ (spff_decode_frame ff_get_buffer avctx got_frame avpkt).picture,
          line = []) := by
  rcases spff_decode_frame_cases ff_get_buffer avctx got_frame avpkt with
    ⟨h1, _⟩ | ⟨_, h2, h⟩ | ⟨_, h2, h⟩
  · omega
  · rw [h]
    exact Or.inl ⟨h2, rfl, rfl, rfl⟩
  · rw [h]
    refine Or.inr ⟨h2, rfl, rfl, ?_⟩
    simp only
    intro line hline
    rcases hdim with hw | hh
    · have hw0 : (declared_width avpkt).toNat = 0 := by omega
      simp [hw0] at hline
      exact hline.2
    · have hh0 : (declared_height avpkt).toNat = 0 := by omega
      simp [hh0] at hline

/-- Instance of the amended C9 on the packet declaring width `0`. -/
theorem decode_nonpositive_dimensions_witness :
    (8 < zero_width_packet.size ∧ declared_width zero_width_packet ≤ 0)
    ∧ ((spff_decode_frame (fun _ => 0) { width := 0, height := 0 } 0 zero_width_packet).ret
        = zero_width_packet.size
      ∧ (spff_decode_frame (fun _ => 0) { width := 0, height := 0 } 0
          zero_width_packet).got_frame = 1) := by
  refine ⟨by decide, ?_⟩
  rcases decode_nonpositive_dimensions (fun _ => 0) { width := 0, height := 0 } 0
      zero_width_packet (by decide) (Or.inl (by decide)) with h | h
  · exact absurd h.1 (by decide)
  · exact ⟨h.2.1, h.2.2.1⟩

/-- C11: when frame allocation succeeds, `spff_decode_frame` returns
`AVERROR_INVALIDDATA` with `got_frame` and the context left as they were
exactly when the packet size is at most `8`; then no pixel is stored.  So
every packet of fewer than `8` bytes and the header-only packet of `8` bytes
are rejected, and no packet of more than `8` bytes gets the invalid-data
code. -/
theorem invalid_data_iff_size_le_header (ff_get_buffer : AVCodecContext → Int)
    (avctx : AVCodecContext) (got_frame : Int) (avpkt : AVPacket)
    (halloc : 0 ≤ ff_get_buffer
      { width := declared_width avpkt, height := declared_height avpkt }) :
    (((spff_decode_frame ff_get_buffer avctx got_frame avpkt).ret = AVERROR_INVALIDDATA
        ∧ (spff_decode_frame ff_get_buffer avctx got_frame avpkt).got_frame = got_frame
        ∧ (spff_decode_frame ff_get_buffer avctx got_frame avpkt).avctx = avctx)
      ↔ avpkt.size ≤ 8)
    ∧ (avpkt.size ≤ 8 →
        (spff_decode_frame ff_get_buffer avctx got_frame avpkt).picture = [])
    ∧ (avpkt.size < 8 →
        (spff_decode_frame ff_get_buffer avctx got_frame avpkt).ret = AVERROR_INVALIDDATA)
    ∧ (avpkt.size = 8 →
        (spff_decode_frame ff_get_buffer avctx got_frame avpkt).ret = AVERROR_INVALIDDATA)
    ∧ (8 < avpkt.size →
        (spff_decode_frame ff_get_buffer avctx got_frame avpkt).ret ≠ AVERROR_INVALIDDATA
        ∧ (spff_decode_frame ff_get_buffer avctx got_frame avpkt).ret = avpkt.size) := by
  have hneg : AVERROR_INVALIDDATA < 0 := by decide
  rcases spff_decode_frame_cases ff_get_buffer avctx got_frame avpkt with
    ⟨h1, h⟩ | ⟨_, h2, _⟩ | ⟨h1, _, h⟩
  · rw [h]
    refine ⟨⟨fun _ => h1, fun _ => ⟨rfl, rfl, rfl⟩⟩, fun _ => rfl, fun _ => rfl,
      fun _ => rfl, fun h8 => ?_⟩
    omega
  · omega
  · rw [h]
    have hne : avpkt.size ≠ AVERROR_INVALIDDATA := by omega
    refine ⟨⟨fun hl => absurd hl.1 hne, fun hle => ?_⟩, fun hle => ?_, fun hlt => ?_,
      fun heq => ?_, fun _ => ⟨hne, rfl⟩⟩
    · omega
    · omega
    · omega
    · omega

/-- Instance of C11 on a header-only packet of `8` bytes. -/
theorem invalid_data_iff_size_le_header_witness :
    (0 : Int) ≤ 0
    ∧ (spff_decode_frame (fun _ => 0) { width := 5, height := 7 } 0
        { data := ptr_of [2, 0, 0, 0, 2, 0, 0, 0], size := 8 }).ret = AVERROR_INVALIDDATA :=
  ⟨by decide,
   (invalid_data_iff_size_le_header (fun _ => 0) { width := 5, height := 7 } 0
      { data := ptr_of [2, 0, 0, 0, 2, 0, 0, 0], size := 8 } (by decide)).2.2.2.1 rfl⟩

/-- C13 (the code breaks it): the scenario frame and the frame that keeps only
the selected channel of each of its pixels agree on every selected channel,
and `spff_encode_frame` writes the same packet bytes for both; but the lines
the source marks "TODO: Remove these lines" print `Red`, `Blue`, `Green` of
pixel `(1, 1)`, whose selected channel is Red, so the two calls print
`10 30 20` and `10 77 77`. -/
theorem debug_print_leaks_unselected_channels :
    (∀ row, row < 2 → ∀ col, col < 2 →
        (get_pixel_rgb scenario_frame row col).chan (select_channel row col)
          = (get_pixel_rgb scenario_frame_masked row col).chan (select_channel row col))
    ∧ select_channel 1 1 = 0
    ∧ (spff_encode_frame (fun _ => 0) { width := 2, height := 2 } scenario_frame 0).written
        = (spff_encode_frame (fun _ => 0) { width := 2, height := 2 }
            scenario_frame_masked 0).written
    ∧ (spff_encode_frame (fun _ => 0) { width := 2, height := 2 } scenario_frame 0).printed
        = [10, 30, 20]
    ∧ (spff_encode_frame (fun _ => 0) { width := 2, height := 2 }
        scenario_frame_masked 0).printed = [10, 77, 77]
    ∧ spff_encode_frame (fun _ => 0) { width := 2, height := 2 } scenario_frame 0
        ≠ spff_encode_frame (fun _ => 0) { width := 2, height := 2 }
            scenario_frame_masked 0 := by
  decide

/-- C14: the `switch` expression of the encoder and of `get_rgb_pos` takes the
same value at `(row + 2, col)` and at `(row, col + 3)` as at `(row, col)`:
both functions pick the same channel there.  On an even row the columns
`3b, 3b+1, 3b+2` get Red, Green, Blue; on an odd row they get Blue, Red,
Green. -/
theorem channel_pattern_periodic (frame2 : AVFrame) (src : Int → Nat) (width : Int)
    (row col a b : Nat) :
    (c_rem (((col : Nat) : Int) + c_rem ((row + 2 : Nat) : Int) 2 * 2) 3
        = c_rem ((col : Int) + c_rem (row : Int) 2 * 2) 3
      ∧ c_rem (((col + 3 : Nat) : Int) + c_rem (row : Int) 2 * 2) 3
        = c_rem ((col : Int) + c_rem (row : Int) 2 * 2) 3)
    ∧ (encode_channel frame2 ((row + 2 : Nat) : Int) (col : Int)
        = (get_pixel_rgb frame2 (row + 2) col).chan (select_channel row col)
      ∧ encode_channel frame2 (row : Int) ((col + 3 : Nat) : Int)
        = (get_pixel_rgb frame2 row (col + 3)).chan (select_channel row col))
    ∧ (get_rgb_pos (fun _ => 1) width ((row + 2 : Nat) : Int) (col : Int)
        = get_rgb_pos (fun _ => 1) width (row : Int) (col : Int)
      ∧ get_rgb_pos (fun _ => 1) width (row : Int) ((col + 3 : Nat) : Int)
        = get_rgb_pos (fun _ => 1) width (row : Int) (col : Int))
    ∧ select_channel row col = select_channel (row % 2) (col % 3)
    ∧ (select_channel (2 * a) (3 * b) = 0 ∧ select_channel (2 * a) (3 * b + 1) = 1
      ∧ select_channel (2 * a) (3 * b + 2) = 2)
    ∧ (select_channel (2 * a + 1) (3 * b) = 2 ∧ select_channel (2 * a + 1) (3 * b + 1) = 0
      ∧ select_channel (2 * a + 1) (3 * b + 2) = 1)
    ∧ (get_rgb_pos src width ((2 * a : Nat) : Int) ((3 * b : Nat) : Int)).Red
        = load_u8 src (((2 * a : Nat) : Int) * width + ((3 * b : Nat) : Int))
    ∧ (get_rgb_pos src width ((2 * a + 1 : Nat) : Int) ((3 * b : Nat) : Int)).Blue
        = load_u8 src (((2 * a + 1 : Nat) : Int) * width + ((3 * b : Nat) : Int)) := by
  have p1 : select_channel (row + 2) col = select_channel row col := by
    unfold select_channel
    omega
  have p2 : select_channel row (col + 3) = select_channel row col := by
    unfold select_channel
    omega
  have e0 : select_channel (2 * a) (3 * b) = 0 := by
    unfold select_channel
    omega
  have o0 : select_channel (2 * a + 1) (3 * b) = 2 := by
    unfold select_channel
    omega
  refine ⟨⟨?_, ?_⟩, ⟨?_, ?_⟩, ⟨?_, ?_⟩, ?_, ⟨e0, ?_, ?_⟩, ⟨o0, ?_, ?_⟩, ?_, ?_⟩
  · rw [c_rem_select, c_rem_select, p1]
  · rw [c_rem_select, c_rem_select, p2]
  · rw [encode_channel_nat, p1]
  · rw [encode_channel_nat, p2]
  · rw [get_rgb_pos_nat, get_rgb_pos_nat, p1]
    simp [load_u8]
  · rw [get_rgb_pos_nat, get_rgb_pos_nat, p2]
    simp [load_u8]
  · unfold select_channel
    rw [Nat.mod_mod]
    omega
  · unfold select_channel
    omega
  · unfold select_channel
    omega
  · unfold select_channel
    omega
  · unfold select_channel
    omega
  · rw [get_rgb_pos_nat, e0]
    simp
  · rw [get_rgb_pos_nat, o0]
    simp

/-- C16: for 8-bit triples `avg_rgb` works channel by channel.  Where the
channel of `second` is `0` the channel of `first` is returned; where it is a
non-zero `s` the result is `(f + s) / 2` rounded down, which lies between
`min f s` and `max f s` and is below `256`, so the store into `uint8_t` does
not wrap. -/
theorem avg_rgb_channelwise (first second : RGBValues)
    (hfirst : first.Red < 256 ∧ first.Green < 256 ∧ first.Blue < 256)
    (hsecond : second.Red < 256 ∧ second.Green < 256 ∧ second.Blue < 256) (k : Nat) :
    (second.chan k = 0 → (avg_rgb first second).chan k = first.chan k)
    ∧ (second.chan k ≠ 0 →
        (avg_rgb first second).chan k = (first.chan k + second.chan k) / 2
        ∧ min (first.chan k) (second.chan k) ≤ (avg_rgb first second).chan k
        ∧ (avg_rgb first second).chan k ≤ max (first.chan k) (second.chan k)
        ∧ (avg_rgb first second).chan k < 256) := by
  have hf : first.chan k < 256 := by
    unfold RGBValues.chan
    split_ifs <;> omega
  have hs : second.chan k < 256 := by
    unfold RGBValues.chan
    split_ifs <;> omega
  rw [chan_avg_rgb]
  unfold avg_u8
  constructor
  · intro h0
    simp [h0]
  · intro h0
    have hpos : second.chan k > 0 := by omega
    rw [if_pos hpos]
    have hmod : (first.chan k + second.chan k) / 2 % 256
        = (first.chan k + second.chan k) / 2 := by omega
    rw [hmod]
    refine ⟨rfl, ?_, ?_, ?_⟩
    · rw [Nat.min_def]
      split_ifs <;> omega
    · rw [Nat.max_def]
      split_ifs <;> omega
    · omega

/-- Instance of C16: `avg_rgb (10, 200, 7) (20, 0, 8)`, Red channel. -/
theorem avg_rgb_channelwise_witness :
    (avg_rgb { Red := 10, Green := 200, Blue := 7 } { Red := 20, Green := 0, Blue := 8 }).chan 0
      = (10 + 20) / 2 :=
  ((avg_rgb_channelwise { Red := 10, Green := 200, Blue := 7 }
      { Red := 20, Green := 0, Blue := 8 } (by decide) (by decide) 0).2 (by decide)).1

/-- C17: the fold of `avg_rgb` from `(0,0,0)` depends on the order of the
contributions: swapping two non-zero contributions, or permuting three,
changes the result.  In `get_rgb_avg` itself: exchanging the bytes of the left
and the top-right neighbour of pixel `(1, 1)` of a 3x3 payload (both stored
as Blue) changes the decoded Blue from `125` to `100`. -/
theorem fold_order_dependent :
    (∃ x y : RGBValues,
      (x.Red ≠ 0 ∧ x.Green ≠ 0 ∧ x.Blue ≠ 0) ∧ (y.Red ≠ 0 ∧ y.Green ≠ 0 ∧ y.Blue ≠ 0)
      ∧ avg_rgb (avg_rgb { Red := 0, Green := 0, Blue := 0 } x) y
          ≠ avg_rgb (avg_rgb { Red := 0, Green := 0, Blue := 0 } y) x)
    ∧ (∃ x y z : RGBValues,
      (x.Red ≠ 0 ∧ x.Green ≠ 0 ∧ x.Blue ≠ 0) ∧ (y.Red ≠ 0 ∧ y.Green ≠ 0 ∧ y.Blue ≠ 0)
      ∧ (z.Red ≠ 0 ∧ z.Green ≠ 0 ∧ z.Blue ≠ 0)
      ∧ [x, y, z].foldl avg_rgb { Red := 0, Green := 0, Blue := 0 }
          ≠ [z, y, x].foldl avg_rgb { Red := 0, Green := 0, Blue := 0 }
      ∧ [x, y, z].foldl avg_rgb { Red := 0, Green := 0, Blue := 0 }
          ≠ [y, x, z].foldl avg_rgb { Red := 0, Green := 0, Blue := 0 })
    ∧ (get_rgb_pos (ptr_of [0, 0, 200, 100, 0, 0, 0, 0, 0]) 3 1 0
          = get_rgb_pos (ptr_of [0, 0, 100, 200, 0, 0, 0, 0, 0]) 3 0 2
      ∧ get_rgb_pos (ptr_of [0, 0, 200, 100, 0, 0, 0, 0, 0]) 3 0 2
          = get_rgb_pos (ptr_of [0, 0, 100, 200, 0, 0, 0, 0, 0]) 3 1 0
      ∧ get_rgb_avg (ptr_of [0, 0, 200, 100, 0, 0, 0, 0, 0]) 3 3 1 1
          = { Red := 0, Green := 0, Blue := 125 }
      ∧ get_rgb_avg (ptr_of [0, 0, 100, 200, 0, 0, 0, 0, 0]) 3 3 1 1
          = { Red := 0, Green := 0, Blue := 100 }) := by
  refine ⟨⟨{ Red := 100, Green := 100, Blue := 100 }, { Red := 200, Green := 200, Blue := 200 },
      by decide⟩,
    ⟨{ Red := 40, Green := 40, Blue := 40 }, { Red := 80, Green := 80, Blue := 80 },
      { Red := 160, Green := 160, Blue := 160 }, by decide⟩, by decide⟩

/-- C12: a contribution of `(0,0,0)` leaves the accumulator unchanged, and so
for an interior pixel (eight neighbours, all inside the image) a neighbour
whose stored byte is `0` can be left out of the fold: `get_rgb_avg` returns
the fold over the remaining neighbours followed by the same overwrite. -/
theorem zero_neighbour_is_no_contribution (src : Int → Nat) (W H row col : Nat)
    (hrow0 : 0 < row) (hrow1 : row + 1 < H) (hcol0 : 0 < col) (hcol1 : col + 1 < W) :
    (∀ a : RGBValues, avg_rgb a { Red := 0, Green := 0, Blue := 0 } = a)
    ∧ (get_rgb_avg_coords W H row col).length = 8
    ∧ ∀ (i : Nat) (c : Int × Int), (get_rgb_avg_coords W H row col)[i]? = some c →
        load_u8 src (c.1 * (W : Int) + c.2) = 0 →
        get_rgb_avg src W H row col
          = self_overwrite
              ((((get_rgb_avg_coords W H row col).eraseIdx i).map
                  fun c => get_rgb_pos src W c.1 c.2).foldl avg_rgb
                { Red := 0, Green := 0, Blue := 0 })
              (get_rgb_pos src W row col) := by
  refine ⟨avg_rgb_zero, ?_, ?_⟩
  · rw [get_rgb_avg_coords_inner W H row col (by omega) (by omega) (by omega) (by omega)]
    rfl
  · intro i c hc h0
    rw [get_rgb_avg_eq_fold, map_eraseIdx_comm]
    have hzero : ((get_rgb_avg_coords W H row col).map
        fun c => get_rgb_pos src W c.1 c.2)[i]?
          = some { Red := 0, Green := 0, Blue := 0 } := by
      rw [List.getElem?_map, hc]
      simp only [Option.map_some']
      rw [get_rgb_pos_zero src W c.1 c.2 h0]
    rw [foldl_avg_rgb_eraseIdx _ _ i hzero]

/-- Instance of C12: 3x3 payload whose left neighbour of the centre is `0`. -/
theorem zero_neighbour_is_no_contribution_witness :
    get_rgb_avg (ptr_of [1, 2, 3, 0, 5, 6, 7, 8, 9]) (3 : Nat) (3 : Nat) (1 : Nat) (1 : Nat)
      = self_overwrite
          ((((get_rgb_avg_coords (3 : Nat) (3 : Nat) (1 : Nat) (1 : Nat)).eraseIdx 0).map
              fun c => get_rgb_pos (ptr_of [1, 2, 3, 0, 5, 6, 7, 8, 9]) (3 : Nat) c.1 c.2).foldl
            avg_rgb { Red := 0, Green := 0, Blue := 0 })
          (get_rgb_pos (ptr_of [1, 2, 3, 0, 5, 6, 7, 8, 9]) (3 : Nat) (1 : Nat) (1 : Nat)) :=
  (zero_neighbour_is_no_contribution (ptr_of [1, 2, 3, 0, 5, 6, 7, 8, 9]) 3 3 1 1
    (by decide) (by decide) (by decide) (by decide)).2.2 0 (1, 0) (by decide) (by decide)

/-- C15: at an interior pixel `get_rgb_avg` returns `avg_rgb` folded from
`(0,0,0)` over the stored-channel triples of left, top-left, bottom-left,
right, top-right, bottom-right, top, bottom, in this order, with every channel
in which the pixel's own stored triple is non-zero replaced by that stored
value. -/
theorem interior_fold_order (src : Int → Nat) (W H row col : Nat)
    (hrow0 : 0 < row) (hrow1 : row + 1 < H) (hcol0 : 0 < col) (hcol1 : col + 1 < W) :
    get_rgb_avg src W H row col
      = self_overwrite
          ([get_rgb_pos src W row ((col : Int) - 1),
            get_rgb_pos src W ((row : Int) - 1) ((col : Int) - 1),
            get_rgb_pos src W ((row : Int) + 1) ((col : Int) - 1),
            get_rgb_pos src W row ((col : Int) + 1),
            get_rgb_pos src W ((row : Int) - 1) ((col : Int) + 1),
            get_rgb_pos src W ((row : Int) + 1) ((col : Int) + 1),
            get_rgb_pos src W ((row : Int) - 1) col,
            get_rgb_pos src W ((row : Int) + 1) col].foldl avg_rgb
            { Red := 0, Green := 0, Blue := 0 })
          (get_rgb_pos src W row col)
    ∧ ∀ (acc : RGBValues) (k : Nat),
        (self_overwrite acc (get_rgb_pos src W row col)).chan k
          = if (get_rgb_pos src W row col).chan k ≠ 0
            then (get_rgb_pos src W row col).chan k else acc.chan k := by
  constructor
  · rw [get_rgb_avg_neighbour_fold src W H row col (by omega) (by omega) (by omega)
      (by omega)]
    rfl
  · intro acc k
    rw [chan_self_overwrite_eq]
    by_cases h : (get_rgb_pos src W row col).chan k = 0
    · simp [h]
    · have hpos : (get_rgb_pos src W row col).chan k > 0 := by omega
      simp [h, hpos]

/-- Instance of C15 at the centre of a 3x3 payload. -/
theorem interior_fold_order_witness :
    get_rgb_avg (ptr_of [1, 2, 3, 4, 5, 6, 7, 8, 9]) (3 : Nat) (3 : Nat) (1 : Nat) (1 : Nat)
      = self_overwrite
          ([get_rgb_pos (ptr_of [1, 2, 3, 4, 5, 6, 7, 8, 9]) (3 : Nat) (1 : Nat)
              (((1 : Nat) : Int) - 1),
            get_rgb_pos (ptr_of [1, 2, 3, 4, 5, 6, 7, 8, 9]) (3 : Nat) (((1 : Nat) : Int) - 1)
              (((1 : Nat) : Int) - 1),
            get_rgb_pos (ptr_of [1, 2, 3, 4, 5, 6, 7, 8, 9]) (3 : Nat) (((1 : Nat) : Int) + 1)
              (((1 : Nat) : Int) - 1),
            get_rgb_pos (ptr_of [1, 2, 3, 4, 5, 6, 7, 8, 9]) (3 : Nat) (1 : Nat)
              (((1 : Nat) : Int) + 1),
            get_rgb_pos (ptr_of [1, 2, 3, 4, 5, 6, 7, 8, 9]) (3 : Nat) (((1 : Nat) : Int) - 1)
              (((1 : Nat) : Int) + 1),
            get_rgb_pos (ptr_of [1, 2, 3, 4, 5, 6, 7, 8, 9]) (3 : Nat) (((1 : Nat) : Int) + 1)
              (((1 : Nat) : Int) + 1),
            get_rgb_pos (ptr_of [1, 2, 3, 4, 5, 6, 7, 8, 9]) (3 : Nat) (((1 : Nat) : Int) - 1)
              (1 : Nat),
            get_rgb_pos (ptr_of [1, 2, 3, 4, 5, 6, 7, 8, 9]) (3 : Nat) (((1 : Nat) : Int) + 1)
              (1 : Nat)].foldl avg_rgb { Red := 0, Green := 0, Blue := 0 })
          (get_rgb_pos (ptr_of [1, 2, 3, 4, 5, 6, 7, 8, 9]) (3 : Nat) (1 : Nat) (1 : Nat)) :=
  (interior_fold_order (ptr_of [1, 2, 3, 4, 5, 6, 7, 8, 9]) 3 3 1 1
    (by decide) (by decide) (by decide) (by decide)).1

/-- C18: at an interior pixel with selected channel `k`, `get_rgb_avg` is the
overwrite of the neighbour fold, and the eight neighbours split by stored
channel.  On an even row channel `(k+1) mod 3` is fed, in this order, by
top-left, bottom-left, right; channel `(k+2) mod 3` by left, top, bottom;
channel `k` by top-right, bottom-right.  On an odd row channel `(k+1) mod 3`
is fed by right, top, bottom; channel `(k+2) mod 3` by left, top-right,
bottom-right; channel `k` by top-left, bottom-left. -/
theorem neighbour_channel_split (src : Int → Nat) (W H row col : Nat)
    (hrow0 : 0 < row) (hrow1 : row + 1 < H) (hcol0 : 0 < col) (hcol1 : col + 1 < W) :
    get_rgb_avg src W H row col
      = self_overwrite (neighbour_fold src W row col) (get_rgb_pos src W row col)
    ∧ (row % 2 = 0 →
        (select_channel (row - 1) (col - 1) = (select_channel row col + 1) % 3
          ∧ select_channel (row + 1) (col - 1) = (select_channel row col + 1) % 3
          ∧ select_channel row (col + 1) = (select_channel row col + 1) % 3
          ∧ select_channel row (col - 1) = (select_channel row col + 2) % 3
          ∧ select_channel (row - 1) col = (select_channel row col + 2) % 3
          ∧ select_channel (row + 1) col = (select_channel row col + 2) % 3
          ∧ select_channel (row - 1) (col + 1) = select_channel row col
          ∧ select_channel (row + 1) (col + 1) = select_channel row col)
        ∧ (neighbour_fold src W row col).chan ((select_channel row col + 1) % 3)
            = avg_u8 (avg_u8 (avg_u8 0 (stored_byte src W (row - 1) (col - 1)))
                (stored_byte src W (row + 1) (col - 1))) (stored_byte src W row (col + 1))
        ∧ (neighbour_fold src W row col).chan ((select_channel row col + 2) % 3)
            = avg_u8 (avg_u8 (avg_u8 0 (stored_byte src W row (col - 1)))
                (stored_byte src W (row - 1) col)) (stored_byte src W (row + 1) col)
        ∧ (neighbour_fold src W row col).chan (select_channel row col)
            = avg_u8 (avg_u8 0 (stored_byte src W (row - 1) (col + 1)))
                (stored_byte src W (row + 1) (col + 1)))
    ∧ (row % 2 = 1 →
        (select_channel row (col + 1) = (select_channel row col + 1) % 3
          ∧ select_channel (row - 1) col = (select_channel row col + 1) % 3
          ∧ select_channel (row + 1) col = (select_channel row col + 1) % 3
          ∧ select_channel row (col - 1) = (select_channel row col + 2) % 3
          ∧ select_channel (row - 1) (col + 1) = (select_channel row col + 2) % 3
          ∧ select_channel (row + 1) (col + 1) = (select_channel row col + 2) % 3
          ∧ select_channel (row - 1) (col - 1) = select_channel row col
          ∧ select_channel (row + 1) (col - 1) = select_channel row col)
        ∧ (neighbour_fold src W row col).chan ((select_channel row col + 1) % 3)
            = avg_u8 (avg_u8 (avg_u8 0 (stored_byte src W row (col + 1)))
                (stored_byte src W (row - 1) col)) (stored_byte src W (row + 1) col)
        ∧ (neighbour_fold src W row col).chan ((select_channel row col + 2) % 3)
            = avg_u8 (avg_u8 (avg_u8 0 (stored_byte src W row (col - 1)))
                (stored_byte src W (row - 1) (col + 1))) (stored_byte src W (row + 1) (col + 1))
        ∧ (neighbour_fold src W row col).chan (select_channel row col)
            = avg_u8 (avg_u8 0 (stored_byte src W (row - 1) (col - 1)))
                (stored_byte src W (row + 1) (col - 1))) := by
  obtain ⟨r0, rfl⟩ : ∃ r0, row = r0 + 1 := ⟨row - 1, by omega⟩
  obtain ⟨c0, rfl⟩ : ∃ c0, col = c0 + 1 := ⟨col - 1, by omega⟩
  have rr : r0 + 1 + 1 = r0 + 2 := rfl
  have cc : c0 + 1 + 1 = c0 + 2 := rfl
  simp only [Nat.add_sub_cancel, rr, cc]
  refine ⟨?_, ?_, ?_⟩
  · exact get_rgb_avg_neighbour_fold src W H _ _ (by omega) (by omega) (by omega) (by omega)
  · intro hpar
    obtain ⟨n1, n2, n3, n4, n5, n6, n7, n8⟩ := neighbour_select_even r0 c0 hpar
    obtain ⟨f1, f2, f3⟩ := neighbour_fold_even src W r0 c0 hpar
    exact ⟨⟨n2, n3, n4, n1, n7, n8, n5, n6⟩, f1, f2, f3⟩
  · intro hpar
    obtain ⟨n1, n2, n3, n4, n5, n6, n7, n8⟩ := neighbour_select_odd r0 c0 hpar
    obtain ⟨f1, f2, f3⟩ := neighbour_fold_odd src W r0 c0 hpar
    exact ⟨⟨n4, n7, n8, n1, n5, n6, n2, n3⟩, f1, f2, f3⟩

/-- Instance of C18 at the centre `(1, 1)` (odd row, selected channel Red) of a
3x3 payload: Green is fed by right, top, bottom. -/
theorem neighbour_channel_split_witness :
    (neighbour_fold (ptr_of [1, 2, 3, 4, 5, 6, 7, 8, 9]) (3 : Nat) (1 : Nat) (1 : Nat)).chan
        ((select_channel 1 1 + 1) % 3)
      = avg_u8 (avg_u8 (avg_u8 0 (stored_byte (ptr_of [1, 2, 3, 4, 5, 6, 7, 8, 9]) 3 1 (1 + 1)))
          (stored_byte (ptr_of [1, 2, 3, 4, 5, 6, 7, 8, 9]) 3 (1 - 1) 1))
          (stored_byte (ptr_of [1, 2, 3, 4, 5, 6, 7, 8, 9]) 3 (1 + 1) 1) :=
  ((neighbour_channel_split (ptr_of [1, 2, 3, 4, 5, 6, 7, 8, 9]) 3 3 1 1
    (by decide) (by decide) (by decide) (by decide)).2.2 (by decide)).2.1

/-- C19: at an interior pixel whose own stored byte is `0`, the selected
channel of the decoded triple is the fold from `0` over the two diagonal
neighbours stored in the same channel (top-right then bottom-right on an even
row, top-left then bottom-left on an odd row); so a stored `0` can decode to
a non-zero value, as it does at the centre of the 3x3 payload
`100 0 0 / 0 0 0 / 60 0 0`. -/
theorem zero_selected_channel_not_preserved (src : Int → Nat) (W H row col : Nat)
    (hrow0 : 0 < row) (hrow1 : row + 1 < H) (hcol0 : 0 < col) (hcol1 : col + 1 < W)
    (hzero : stored_byte src W row col = 0) :
    (row % 2 = 0 →
        (get_rgb_avg src W H row col).chan (select_channel row col)
          = avg_u8 (avg_u8 0 (stored_byte src W (row - 1) (col + 1)))
              (stored_byte src W (row + 1) (col + 1))
        ∧ (get_rgb_avg src W H row col).chan (select_channel row col)
          = ([get_rgb_pos src W ((row - 1 : Nat) : Int) ((col + 1 : Nat) : Int),
              get_rgb_pos src W ((row + 1 : Nat) : Int) ((col + 1 : Nat) : Int)].foldl avg_rgb
              { Red := 0, Green := 0, Blue := 0 }).chan (select_channel row col))
    ∧ (row % 2 = 1 →
        (get_rgb_avg src W H row col).chan (select_channel row col)
          = avg_u8 (avg_u8 0 (stored_byte src W (row - 1) (col - 1)))
              (stored_byte src W (row + 1) (col - 1))
        ∧ (get_rgb_avg src W H row col).chan (select_channel row col)
          = ([get_rgb_pos src W ((row - 1 : Nat) : Int) ((col - 1 : Nat) : Int),
              get_rgb_pos src W ((row + 1 : Nat) : Int) ((col - 1 : Nat) : Int)].foldl avg_rgb
              { Red := 0, Green := 0, Blue := 0 }).chan (select_channel row col))
    ∧ (stored_byte (ptr_of [100, 0, 0, 0, 0, 0, 60, 0, 0]) 3 1 1 = 0
      ∧ (get_rgb_avg (ptr_of [100, 0, 0, 0, 0, 0, 60, 0, 0]) 3 3 1 1).chan (select_channel 1 1)
          = 55) := by
  obtain ⟨r0, rfl⟩ : ∃ r0, row = r0 + 1 := ⟨row - 1, by omega⟩
  obtain ⟨c0, rfl⟩ : ∃ c0, col = c0 + 1 := ⟨col - 1, by omega⟩
  have rr : r0 + 1 + 1 = r0 + 2 := rfl
  have cc : c0 + 1 + 1 = c0 + 2 := rfl
  have hk := select_channel_lt (r0 + 1) (c0 + 1)
  have hself : (get_rgb_pos src W ((r0 + 1 : Nat) : Int) ((c0 + 1 : Nat) : Int)).chan
      (select_channel (r0 + 1) (c0 + 1)) = 0 := by
    rw [chan_get_rgb_pos]
    exact hzero
  have hres : (get_rgb_avg src W H ((r0 + 1 : Nat) : Int) ((c0 + 1 : Nat) : Int)).chan
      (select_channel (r0 + 1) (c0 + 1))
        = (neighbour_fold src W ((r0 + 1 : Nat) : Int) ((c0 + 1 : Nat) : Int)).chan
            (select_channel (r0 + 1) (c0 + 1)) := by
    rw [get_rgb_avg_neighbour_fold src W H _ _ (by omega) (by omega) (by omega) (by omega),
      chan_self_overwrite_eq, hself]
    simp
  have hz : ({ Red := 0, Green := 0, Blue := 0 } : RGBValues).chan
      (select_channel (r0 + 1) (c0 + 1)) = 0 := by
    unfold RGBValues.chan
    split_ifs <;> rfl
  simp only [Nat.add_sub_cancel, rr, cc]
  refine ⟨?_, ?_, by decide⟩
  · intro hpar
    obtain ⟨_, _, _, _, n5, n6, _, _⟩ := neighbour_select_even r0 c0 hpar
    have hfold := (neighbour_fold_even src W r0 c0 hpar).2.2
    refine ⟨hres.trans hfold, ?_⟩
    rw [hres, hfold]
    simp only [List.foldl_cons, List.foldl_nil, chan_avg_rgb, chan_get_rgb_pos_eq _ _ _ _ _ hk,
      channel_sample, n5, n6, if_true, hz]
  · intro hpar
    obtain ⟨_, n2, n3, _, _, _, _, _⟩ := neighbour_select_odd r0 c0 hpar
    have hfold := (neighbour_fold_odd src W r0 c0 hpar).2.2
    refine ⟨hres.trans hfold, ?_⟩
    rw [hres, hfold]
    simp only [List.foldl_cons, List.foldl_nil, chan_avg_rgb, chan_get_rgb_pos_eq _ _ _ _ _ hk,
      channel_sample, n2, n3, if_true, hz]

/-- Instance of C19 at the centre of the 3x3 payload `100 0 0 / 0 0 0 / 60 0 0`
(odd row): Red decodes to the fold over top-left and bottom-left. -/
theorem zero_selected_channel_not_preserved_witness :
    stored_byte (ptr_of [100, 0, 0, 0, 0, 0, 60, 0, 0]) 3 1 1 = 0
    ∧ (get_rgb_avg (ptr_of [100, 0, 0, 0, 0, 0, 60, 0, 0]) (3 : Nat) (3 : Nat) (1 : Nat)
          (1 : Nat)).chan (select_channel 1 1)
        = avg_u8 (avg_u8 0 (stored_byte (ptr_of [100, 0, 0, 0, 0, 0, 60, 0, 0]) 3 (1 - 1) (1 - 1)))
            (stored_byte (ptr_of [100, 0, 0, 0, 0, 0, 60, 0, 0]) 3 (1 + 1) (1 - 1)) :=
  ⟨by decide,
   ((zero_selected_channel_not_preserved (ptr_of [100, 0, 0, 0, 0, 0, 60, 0, 0]) 3 3 1 1
      (by decide) (by decide) (by decide) (by decide) (by decide)).2.1 (by decide)).1⟩

/-- C20 (fails on the code): in the 2x2 scenario image `get_rgb_avg` at pixel
`(0, 1)` folds in, as right neighbour, the byte stored for pixel `(1, 0)`, and
`get_rgb_pos` places it in Blue, the very channel pixel `(1, 0)` was encoded
with: the sample is the triple `get_rgb_pos` returns for `(1, 0)` itself.
That byte, `255`, enters Blue twice (as bottom-left and as right neighbour):
the decoded Blue is `191`. -/
theorem wrapped_sample_same_channel :
    get_rgb_avg_coords 2 2 0 1 = [(0, 0), (1, 0), (0, 2), (1, 2), (1, 1)]
    ∧ select_channel 0 2 = 2 ∧ select_channel 1 0 = 2
    ∧ encode_channel scenario_frame 1 0 = (get_pixel_rgb scenario_frame 1 0).Blue
    ∧ get_rgb_pos (ptr_of (encode_pixels scenario_frame 2 2)) 2 0 (1 + 1)
        = { Red := 0, Green := 0, Blue := 255 }
    ∧ get_rgb_pos (ptr_of (encode_pixels scenario_frame 2 2)) 2 0 (1 + 1)
        = get_rgb_pos (ptr_of (encode_pixels scenario_frame 2 2)) 2 1 0
    ∧ get_rgb_avg (ptr_of (encode_pixels scenario_frame 2 2)) 2 2 0 1
        = { Red := 68, Green := 255, Blue := 191 }
    ∧ (get_rgb_avg (ptr_of (encode_pixels scenario_frame 2 2)) 2 2 0 1).Blue
        = avg_u8 (avg_u8 0 255) 255 := by
  decide

/-- C20 (amended): for a pixel `(row, W-1)` of the last column with
`row + 1 < H`, the guard `x < width` holds and `get_rgb_avg` folds in, after
the left-side neighbours and before the remaining ones, the triple
`get_rgb_pos` returns for `(row, W)`.  That triple holds the payload byte
stored for pixel `(row+1, 0)` (offset `row*W + W`), placed in channel
`[Red, Green, Blue][(W + (row mod 2)*2) mod 3]`.  That channel is the one
pixel `(row+1, 0)` was encoded with exactly when `W mod 3 = 2` on an even row
or `W mod 3 = 1` on an odd row, and differs from it otherwise. -/
theorem last_column_right_neighbour_wraps (frame2 : AVFrame) (src : Int → Nat)
    (W H row : Nat) (hW : 0 < W) (hrow : row + 1 < H)
    (hsrc : ∀ k : Nat, k < W * H → src k = (encode_pixels frame2 W H).getD k 0) :
    ((W : Int) - 1 < (W : Int))
    ∧ (get_rgb_avg_coords W H row ((W : Int) - 1))[if 1 < W then (if 0 < row then 3 else 2)
          else 0]?
        = some ((row : Int), (W : Int) - 1 + 1)
    ∧ get_rgb_avg src W H row ((W : Int) - 1)
        = self_overwrite
            ((((get_rgb_avg_coords W H row ((W : Int) - 1)).drop
                  ((if 1 < W then (if 0 < row then 3 else 2) else 0) + 1)).map
                fun c => get_rgb_pos src W c.1 c.2).foldl avg_rgb
              (avg_rgb
                ((((get_rgb_avg_coords W H row ((W : Int) - 1)).take
                      (if 1 < W then (if 0 < row then 3 else 2) else 0)).map
                    fun c => get_rgb_pos src W c.1 c.2).foldl avg_rgb
                  { Red := 0, Green := 0, Blue := 0 })
                (get_rgb_pos src W row ((W : Int) - 1 + 1))))
            (get_rgb_pos src W row ((W : Int) - 1))
    ∧ get_rgb_pos src W row ((W : Int) - 1 + 1)
        = (if (W + (row % 2) * 2) % 3 = 0 then
            { Red := stored_byte src W (row + 1) 0, Green := 0, Blue := 0 }
          else if (W + (row % 2) * 2) % 3 = 1 then
            { Red := 0, Green := stored_byte src W (row + 1) 0, Blue := 0 }
          else
            { Red := 0, Green := 0, Blue := stored_byte src W (row + 1) 0 })
    ∧ (row : Int) * (W : Int) + ((W : Int) - 1 + 1) = ((row * W + W : Nat) : Int)
    ∧ row * W + W = (row + 1) * W + 0
    ∧ row * W + W < W * H
    ∧ stored_byte src W (row + 1) 0
        = (get_pixel_rgb frame2 (row + 1) 0).chan (select_channel (row + 1) 0)
    ∧ ((W + (row % 2) * 2) % 3 = select_channel (row + 1) 0
        ↔ (row % 2 = 0 ∧ W % 3 = 2) ∨ (row % 2 = 1 ∧ W % 3 = 1)) := by
  have hx : (W : Int) - 1 + 1 = (W : Int) := by ring
  have hoff : (row : Int) * (W : Int) + (W : Int)
      = ((row + 1 : Nat) : Int) * (W : Int) + ((0 : Nat) : Int) := by
    push_cast
    ring
  have hidx : row * W + W < W * H := by
    have h1 : (row + 1 + 1) * W ≤ H * W := Nat.mul_le_mul_right W (by omega)
    have h2 : (row + 1 + 1) * W = row * W + W + W := by ring
    rw [Nat.mul_comm H W] at h1
    omega
  have hcell := load_payload frame2 W H src hsrc (row + 1) 0 (by omega) hW
  have hpos := get_rgb_avg_coords_right_index W H row hW hrow
  refine ⟨by omega, hpos, ?_, ?_, ?_, by ring, hidx, hcell, ?_⟩
  · rw [get_rgb_avg_eq_fold,
      foldl_avg_rgb_split (fun c => get_rgb_pos src W c.1 c.2) _ _ _ _ hpos]
  · rw [hx, get_rgb_pos_nat]
    unfold stored_byte select_channel
    rw [hoff]
  · rw [hx]
    push_cast
    ring
  · unfold select_channel
    omega

/-- Instance of the amended C20 on the 2x2 scenario image, row `0`: the
pixel `(0, 1)` is decoded by folding the triple of `(0, 2)` in after the two
left-side neighbours. -/
theorem last_column_right_neighbour_wraps_witness :
    (0 : Nat) < 2
    ∧ get_rgb_avg (ptr_of (encode_pixels scenario_frame (2 : Nat) (2 : Nat))) (2 : Nat)
          (2 : Nat) (0 : Nat) (((2 : Nat) : Int) - 1)
        = self_overwrite
            ((((get_rgb_avg_coords (2 : Nat) (2 : Nat) (0 : Nat) (((2 : Nat) : Int) - 1)).drop
                  ((if 1 < 2 then (if 0 < 0 then 3 else 2) else 0) + 1)).map
                fun c => get_rgb_pos (ptr_of (encode_pixels scenario_frame (2 : Nat) (2 : Nat)))
                  (2 : Nat) c.1 c.2).foldl avg_rgb
              (avg_rgb
                ((((get_rgb_avg_coords (2 : Nat) (2 : Nat) (0 : Nat)
                      (((2 : Nat) : Int) - 1)).take
                      (if 1 < 2 then (if 0 < 0 then 3 else 2) else 0)).map
                    fun c => get_rgb_pos
                      (ptr_of (encode_pixels scenario_frame (2 : Nat) (2 : Nat)))
                      (2 : Nat) c.1 c.2).foldl avg_rgb
                  { Red := 0, Green := 0, Blue := 0 })
                (get_rgb_pos (ptr_of (encode_pixels scenario_frame (2 : Nat) (2 : Nat)))
                  (2 : Nat) (0 : Nat) (((2 : Nat) : Int) - 1 + 1))))
            (get_rgb_pos (ptr_of (encode_pixels scenario_frame (2 : Nat) (2 : Nat)))
              (2 : Nat) (0 : Nat) (((2 : Nat) : Int) - 1)) :=
  ⟨by decide,
   (last_column_right_neighbour_wraps scenario_frame
      (ptr_of (encode_pixels scenario_frame (2 : Nat) (2 : Nat))) 2 2 0 (by decide) (by decide)
      (by intro k _; simp [ptr_of])).2.2.1⟩

end Spff
